import Mathlib

/-!
Verification of the capsule-orchestrator runtime (`src/orchestrator/`).

This file shallowly embeds the data model and the operations of the
orchestrator: the per-session volume trees managed by `VolumeManager`, the
typed file moves of `FileManager`, the execution/handoff registry of
`StateTracker`, the full lifecycle of `CapsuleExecutor.execute_capsule`,
and `HandoffHandler.process_handoff`.  External collaborators (the Docker
driver, the jsonschema library, the host filesystem) are modelled as
explicit data: an environment record says whether the image builds,
whether a container starts, which exit code the wait returns, and what
the container wrote into the mounted session tree; the host filesystem is
an association list from paths to file contents.  Side effects on shared
state (session volumes, the state tracker, container stop/remove events,
the write of `input.json`) are threaded through an explicit orchestrator
state with an event trace, mirroring the Python control flow branch by
branch.
-/

namespace AgentOnDemand

/-- A JSON value, as produced by `json.load` / passed in request payloads. -/
inductive JVal where
  | str (s : String)
  | num (n : Int)
  | bool (b : Bool)
  | null
  | list (xs : List JVal)
  | obj (fields : List (String × JVal))

/-- Python truthiness of a JSON value (`if input_data['file']:`). -/
def JVal.truthy : JVal → Bool
  | .str s => !(s == "")
  | .num n => !(n == 0)
  | .bool b => b
  | .null => false
  | .list xs => !xs.isEmpty
  | .obj fs => !fs.isEmpty

/-- Association-list lookup (models Python `dict` access; keys are unique
in dictionaries built by the code). -/
def alookup {α : Type} : List (String × α) → String → Option α
  | [], _ => none
  | (k, v) :: t, key => if k = key then some v else alookup t key

/-- Association-list update (models Python `d[k] = v`: replaces in place,
preserving insertion order, or appends a fresh key). -/
def aset {α : Type} : List (String × α) → String → α → List (String × α)
  | [], key, v => [(key, v)]
  | (k, w) :: t, key, v => if k = key then (key, v) :: t else (k, w) :: aset t key v

/-- Association-list erase (models `del` / directory removal). -/
def aerase {α : Type} (l : List (String × α)) (key : String) : List (String × α) :=
  l.filter (fun p => !(p.1 == key))

/-- Helper for `basename`: drop trailing slashes, then keep the suffix
after the last slash (computed on the character list so that it reduces
inside the kernel). -/
def basenameChars (l : List Char) : List Char :=
  let l2 := l.reverse.dropWhile (fun c => c == '/')
  (l2.takeWhile (fun c => !(c == '/'))).reverse

/-- Model of `Path(p).name`: the last non-empty `/`-separated component. -/
def basename (p : String) : String := String.mk (basenameChars p.data)

/-- The host filesystem outside the session trees: existing file paths and
their contents. -/
def Host : Type := List (String × String)

/-- Lookup on the host filesystem; the empty path never exists. -/
def hostLookup (host : Host) (p : String) : Option String :=
  if p = "" then none else alookup host p

/-- Model of `os.path.exists` over the modelled host filesystem. -/
def os_path_exists (host : Host) (p : String) : Bool :=
  (hostLookup host p).isSome

/-- The text stored in a JSON file on disk: either it parses to a value or
it is syntactically invalid. -/
inductive JsonText where
  | valid (v : JVal)
  | invalid

/-- One session's directory tree (`<base>/<session>/`): staged input files,
capsule-written output files, the two handoff directories, and the two
JSON payload files. -/
structure SessionTree where
  input : List (String × String) := []
  output : List (String × String) := []
  outgoing : List (String × String) := []
  incoming : List (String × String) := []
  inputJson : Option (List (String × JVal)) := none
  outputJson : Option JsonText := none

/-- The session volumes under the base path: the tree exists iff the
session id is a key. -/
def Volumes : Type := List (String × SessionTree)

/-! ## VolumeManager (`utils/volume_manager.py`) -/

/-- Model of `VolumeManager.create_session_volume`: `mkdir(parents=True,
exist_ok=True)` on the four subdirectories — an existing tree (with any
files already in it) is kept. -/
def create_session_volume (vols : Volumes) (session_id : String) : Volumes :=
  match alookup vols session_id with
  | some _ => vols
  | none => aset vols session_id {}

/-- Model of `VolumeManager.remove_session_volume`: returns `false` when the volume
does not exist, otherwise `rmtree`s it and returns `true`.  Exceptions
from `rmtree` are caught inside the method (logged, `return False`), so
the operation is total. -/
def remove_session_volume (vols : Volumes) (session_id : String) : Volumes × Bool :=
  match alookup vols session_id with
  | none => (vols, false)
  | some _ => (aerase vols session_id, true)

/-- Model of `VolumeManager.volume_exists`. -/
def volume_exists (vols : Volumes) (session_id : String) : Bool :=
  (alookup vols session_id).isSome

/-! ## FileManager (`file_manager.py`) -/

/-- Model of `FileManager.copy_to_input`: fails (returns `false`) when the source
does not exist; otherwise `mkdir`s the input directory (creating the tree
if needed) and copies, overwriting any same-named file. -/
def copy_to_input (host : Host) (vols : Volumes) (source_path : String)
    (session_id : String) (filename : Option String) : Volumes × Bool :=
  match hostLookup host source_path with
  | none => (vols, false)
  | some content =>
    let fname := match filename with
      | some f => f
      | none => basename source_path
    let tree := (alookup vols session_id).getD {}
    (aset vols session_id { tree with input := aset tree.input fname content }, true)

/-- Model of `FileManager.copy_handoff_outgoing`: copy a file from the source
session's `handoff/outgoing/` into the target session's `input/`
(`mkdir(parents=True)` creates the target tree if it is not there yet). -/
def copy_handoff_outgoing (vols : Volumes) (source_session_id target_session_id
    filename : String) : Volumes × Bool :=
  match alookup vols source_session_id with
  | none => (vols, false)
  | some srcTree =>
    match alookup srcTree.outgoing filename with
    | none => (vols, false)
    | some content =>
      let dstTree := (alookup vols target_session_id).getD {}
      (aset vols target_session_id
        { dstTree with input := aset dstTree.input filename content }, true)

/-- Model of `FileManager.copy_handoff_incoming`: copy a file from the source
session's `output/` into the target session's `handoff/incoming/`. -/
def copy_handoff_incoming (vols : Volumes) (source_session_id target_session_id
    filename : String) : Volumes × Bool :=
  match alookup vols source_session_id with
  | none => (vols, false)
  | some srcTree =>
    match alookup srcTree.output filename with
    | none => (vols, false)
    | some content =>
      let dstTree := (alookup vols target_session_id).getD {}
      (aset vols target_session_id
        { dstTree with incoming := aset dstTree.incoming filename content }, true)

/-- Model of `FileManager.write_input_json`: writing `<session>/input.json` fails
when the session directory does not exist. -/
def write_input_json (vols : Volumes) (session_id : String)
    (payload : List (String × JVal)) : Volumes × Bool :=
  match alookup vols session_id with
  | none => (vols, false)
  | some t => (aset vols session_id { t with inputJson := some payload }, true)

/-- Model of `FileManager.read_output_json`: `None` when `output.json` is absent,
`None` on `json.JSONDecodeError` (syntactically invalid contents), the
parsed payload otherwise. -/
def read_output_json (vols : Volumes) (session_id : String) : Option JVal :=
  match alookup vols session_id with
  | none => none
  | some t =>
    match t.outputJson with
    | none => none
    | some .invalid => none
    | some (.valid v) => some v

/-- Model of `FileManager.list_output_files`: names of the files in `output/`
(empty when the tree is gone). -/
def list_output_files (vols : Volumes) (session_id : String) : List String :=
  match alookup vols session_id with
  | none => []
  | some t => t.output.map (fun p => p.1)

/-- Model of `FileManager.file_exists_in_handoff_outgoing`. -/
def file_exists_in_handoff_outgoing (vols : Volumes) (session_id filename : String) : Bool :=
  match alookup vols session_id with
  | none => false
  | some t => (alookup t.outgoing filename).isSome

/-! ## StateTracker (`state_tracker.py`) -/

/-- Execution status: `'running' | 'completed' | 'failed'`. -/
inductive Status where
  | running
  | completed
  | failed
deriving DecidableEq

/-- Model of `CapsuleExecution`: one tracked capsule execution, keyed by session. -/
structure ExecRecord where
  session_id : String
  capsule_name : String
  start_time : Int
  status : Status
  container_id : Option Nat := none
  parent_session_id : Option String := none
deriving DecidableEq

/-- Model of `Handoff`: one recorded handoff edge. -/
structure HandoffEdge where
  caller_session_id : String
  caller_capsule : String
  target_capsule : String
  target_session_id : String
  timestamp : Int
  success : Bool
deriving DecidableEq

/-- The `StateTracker` data: the execution map (insertion-ordered, as a
Python dict) and the bounded handoff history. -/
structure StateTracker where
  executions : List (String × ExecRecord) := []
  handoffs : List HandoffEdge := []
  max_handoff_history : Nat := 1000

/-- Model of `StateTracker.register_execution` at wall-clock time `now`: a fresh
record in status `running`. -/
def register_execution (tr : StateTracker) (now : Int) (session_id capsule_name : String)
    (container_id : Option Nat) (parent_session_id : Option String) : StateTracker :=
  { tr with
    executions := aset tr.executions session_id
      ({ session_id := session_id, capsule_name := capsule_name, start_time := now,
         status := .running, container_id := container_id,
         parent_session_id := parent_session_id } : ExecRecord) }

/-- Model of `StateTracker.update_execution_status`: updates the status (and the
container id when given) of an existing record; unknown sessions are
ignored. -/
def update_execution_status (tr : StateTracker) (session_id : String) (status : Status)
    (container_id : Option Nat) : StateTracker :=
  match alookup tr.executions session_id with
  | none => tr
  | some r =>
    let r := { r with status := status }
    let r := match container_id with
      | some c => { r with container_id := some c }
      | none => r
    { tr with executions := aset tr.executions session_id r }

/-- Model of `StateTracker.register_handoff` at time `now`: append the edge, then
trim the history to the most recent `max_handoff_history` entries. -/
def register_handoff (tr : StateTracker) (now : Int)
    (caller_session_id caller_capsule target_capsule target_session_id : String)
    (success : Bool) : StateTracker :=
  let hs := tr.handoffs ++
    [{ caller_session_id := caller_session_id, caller_capsule := caller_capsule,
       target_capsule := target_capsule, target_session_id := target_session_id,
       timestamp := now, success := success }]
  let hs := if hs.length > tr.max_handoff_history
    then hs.drop (hs.length - tr.max_handoff_history) else hs
  { tr with handoffs := hs }

/-- Model of `StateTracker.get_capsule_name`. -/
def get_capsule_name (tr : StateTracker) (session_id : String) : Option String :=
  (alookup tr.executions session_id).map (fun r => r.capsule_name)

/-- One node of the visualizer snapshot. -/
structure StateNode where
  id : String
  session_id : String
  capsule_name : String
  status : Status
  start_time : Int
  container_id : Option Nat
  parent_session_id : Option String
deriving DecidableEq

/-- One edge of the visualizer snapshot. -/
structure StateEdge where
  edge_from : String
  edge_to : String
  caller_capsule : String
  target_capsule : String
  timestamp : Int
  success : Bool
deriving DecidableEq

/-- The `get_state` snapshot. -/
structure Snapshot where
  nodes : List StateNode
  edges : List StateEdge
  timestamp : Int

/-- The inclusion test of `get_state` for executions: running, or
completed/failed with `now - start_time < 30` — the age is measured from
`start_time` (the record holds no terminal timestamp). -/
def execIncluded (now : Int) (e : ExecRecord) : Bool :=
  decide (e.status = .running) ||
    ((decide (e.status = .completed) || decide (e.status = .failed)) &&
      decide (now - e.start_time < 30))

/-- Node built from an execution record. -/
def mkStateNode (e : ExecRecord) : StateNode :=
  { id := e.session_id, session_id := e.session_id, capsule_name := e.capsule_name,
    status := e.status, start_time := e.start_time, container_id := e.container_id,
    parent_session_id := e.parent_session_id }

/-- Edge built from a handoff record. -/
def mkStateEdge (h : HandoffEdge) : StateEdge :=
  { edge_from := h.caller_session_id, edge_to := h.target_session_id,
    caller_capsule := h.caller_capsule, target_capsule := h.target_capsule,
    timestamp := h.timestamp, success := h.success }

/-- Model of `StateTracker.get_state`: nodes are the included executions; edges are
the handoffs whose caller or target is among the included sessions or
whose age is under 60 seconds. -/
def get_state (tr : StateTracker) (now : Int) : Snapshot :=
  let active := (tr.executions.map (fun p => p.2)).filter (execIncluded now)
  let activeIds := active.map (fun e => e.session_id)
  let nodes := active.map mkStateNode
  let edges := (tr.handoffs.filter (fun h =>
      activeIds.contains h.caller_session_id ||
      activeIds.contains h.target_session_id ||
      decide (now - h.timestamp < 60))).map mkStateEdge
  { nodes := nodes, edges := edges, timestamp := now }

/-! ## CapsuleExecutor (`capsule_executor.py`)

The Docker driver and the jsonschema validator are external collaborators;
an `ExecEnv` record fixes the outcome of each of their calls for one
`execute_capsule` invocation, and a `ContainerWrites` record fixes what
the capsule process wrote into the mounted `/io` tree while it ran.  The
orchestrator-side effects — session volumes, the state tracker, and the
container / input.json events — are threaded through `OrchState`. -/

/-- What the capsule wrote into its session tree during the container run. -/
structure ContainerWrites where
  outputFiles : List (String × String) := []
  outputJson : Option JsonText := none

/-- Outcomes of the external calls made by one `execute_capsule` run. -/
structure ExecEnv where
  /-- `config.get_capsule(name)` is not `None`. -/
  capsuleFound : Bool := true
  /-- `SchemaValidator(...)` / `validate_input` raised (outer `except`
  before the session is created). -/
  validatorRaises : Bool := false
  /-- `validate_input` returned `is_valid`. -/
  inputValid : Bool := true
  /-- `create_session_volume` raised (caught by the in-`try` handler). -/
  createVolumeRaises : Bool := false
  /-- The host filesystem visible to `os.path.exists` and `shutil.copy2`. -/
  host : Host := []
  /-- `_ensure_image_built` result. -/
  buildOk : Bool := true
  /-- `run_capsule`: the started container id, or `None` on failure. -/
  runContainer : Option Nat := some 0
  /-- `wait_for_container`: the exit code, or `None` on timeout/error. -/
  waitResult : Option Int := some 0
  /-- `get_container_logs` result. -/
  logs : String := ""
  /-- Files and `output.json` the container wrote while running. -/
  writes : ContainerWrites := {}
  /-- `validate_output` returned `is_valid` (warning-only). -/
  outputValid : Bool := true

/-- Observable container / file events, in order of occurrence. -/
inductive Event where
  | containerStarted (cid : Nat)
  | containerStopped (cid : Nat)
  | containerRemoved (cid : Nat) (force : Bool)
  | inputJsonWritten (session_id : String) (payload : List (String × JVal))
  | outputValidationWarned (session_id : String)

/-- The orchestrator's shared mutable state plus the event trace. -/
structure OrchState where
  vols : Volumes := []
  tracker : StateTracker := {}
  trace : List Event := []

/-- A response envelope (`execute_capsule` and `process_handoff` both
return plain dicts; absent keys are `none`). -/
structure Response where
  success : Bool
  output : Option JVal := none
  files : List String := []
  error : Option String := none
  logs : Option String := none
  session_id : Option String := none

/-- The `input_files` staging loop of `execute_capsule` (lines 117-133):
copy each `filename -> source_path` entry into `input/`, stopping with an
error on the first failed copy; effects of earlier copies persist. -/
def stageInputFiles (host : Host) (vols : Volumes) (session_id : String) :
    List (String × String) → Volumes × Bool
  | [] => (vols, true)
  | (filename, source_path) :: rest =>
    match copy_to_input host vols source_path session_id (some filename) with
    | (v, true) => stageInputFiles host v session_id rest
    | (v, false) => (v, false)

/-- Implicit staging of the `'file'` key (lines 140-154): when the value
is a truthy string that resolves on the host, copy it to `input/` and
rewrite it to `/io/input/<basename>`; otherwise leave the payload alone.
`false` means the copy failed (the error return path). -/
def stageFileKey (host : Host) (vols : Volumes) (session_id : String)
    (input_data : List (String × JVal)) :
    List (String × JVal) × Volumes × Bool :=
  match alookup input_data "file" with
  | none => (input_data, vols, true)
  | some v =>
    if v.truthy then
      match v with
      | .str file_path =>
        if os_path_exists host file_path then
          let filename := basename file_path
          match copy_to_input host vols file_path session_id (some filename) with
          | (v2, true) =>
            (aset input_data "file" (.str ("/io/input/" ++ filename)), v2, true)
          | (v2, false) => (input_data, v2, false)
        else (input_data, vols, true)
      | _ => (input_data, vols, true)
    else (input_data, vols, true)

/-- The element loop of the `'files'` key (lines 160-176): resolving
string elements are copied and rewritten, all other elements are kept
unchanged. -/
def stageFilesElems (host : Host) (vols : Volumes) (session_id : String) :
    List JVal → List JVal × Volumes × Bool
  | [] => ([], vols, true)
  | v :: rest =>
    match v with
    | .str file_path =>
      if os_path_exists host file_path then
        let filename := basename file_path
        match copy_to_input host vols file_path session_id (some filename) with
        | (v2, true) =>
          match stageFilesElems host v2 session_id rest with
          | (vs, v3, ok) => (JVal.str ("/io/input/" ++ filename) :: vs, v3, ok)
        | (v2, false) => ([], v2, false)
      else
        match stageFilesElems host vols session_id rest with
        | (vs, v3, ok) => (v :: vs, v3, ok)
    | _ =>
      match stageFilesElems host vols session_id rest with
      | (vs, v3, ok) => (v :: vs, v3, ok)

/-- Implicit staging of the `'files'` key (lines 156-177). -/
def stageFilesKey (host : Host) (vols : Volumes) (session_id : String)
    (input_data : List (String × JVal)) :
    List (String × JVal) × Volumes × Bool :=
  match alookup input_data "files" with
  | none => (input_data, vols, true)
  | some v =>
    if v.truthy then
      match v with
      | .list xs =>
        match stageFilesElems host vols session_id xs with
        | (xs2, v2, true) => (aset input_data "files" (.list xs2), v2, true)
        | (_, v2, false) => (input_data, v2, false)
      | _ => (input_data, vols, true)
    else (input_data, vols, true)

/-- Apply the container's writes to the mounted session tree (the capsule
writes `output/` files and `output.json` through the `/io` bind mount
while it runs). -/
def applyWrites (vols : Volumes) (session_id : String) (w : ContainerWrites) : Volumes :=
  match alookup vols session_id with
  | none => vols
  | some t =>
    let t := { t with
      output := w.outputFiles.foldl (fun acc fc => aset acc fc.1 fc.2) t.output,
      outputJson := w.outputJson }
    aset vols session_id t

/-- The body of `execute_capsule` from the `try` at line 111 up to (but
not including) the `finally`: session creation, explicit and implicit
file staging, `input.json`, build, run, wait, logs, output reading and
validation, container cleanup, and the state-tracker transitions of each
branch, in source order. -/
def executeCapsuleBody (env : ExecEnv) (session_id : String)
    (input_data : List (String × JVal)) (input_files : Option (List (String × String)))
    (st : OrchState) : Response × OrchState :=
  if env.createVolumeRaises then
    -- create_session_volume raised: the in-try `except` marks the session
    -- failed and returns `str(e)` as the error
    ({ success := false, error := some "exception" },
     { st with tracker := update_execution_status st.tracker session_id .failed none })
  else
    let st := { st with vols := create_session_volume st.vols session_id }
    match stageInputFiles env.host st.vols session_id
        ((input_files.getD []) : List (String × String)) with
    | (v1, false) =>
      ({ success := false, error := some "Failed to copy input file" },
       { st with vols := v1 })
    | (v1, true) =>
    let st := { st with vols := v1 }
    match stageFileKey env.host st.vols session_id input_data with
    | (_, v2, false) =>
      ({ success := false, error := some "Failed to copy file from input" },
       { st with vols := v2 })
    | (d1, v2, true) =>
    let st := { st with vols := v2 }
    match stageFilesKey env.host st.vols session_id d1 with
    | (_, v3, false) =>
      ({ success := false, error := some "Failed to copy file from input" },
       { st with vols := v3 })
    | (d2, v3, true) =>
    let st := { st with vols := v3 }
    match write_input_json st.vols session_id d2 with
    | (_, false) =>
      ({ success := false, error := some "Failed to write input JSON" }, st)
    | (v4, true) =>
    let st := { st with vols := v4 }
    let st := { st with trace := st.trace ++ [Event.inputJsonWritten session_id d2] }
    if !env.buildOk then
      ({ success := false, error := some "Failed to build Docker image" }, st)
    else
      match env.runContainer with
      | none =>
        ({ success := false, error := some "Failed to start container" },
         { st with tracker := update_execution_status st.tracker session_id .failed none })
      | some cid =>
      let st := { st with
        trace := st.trace ++ [Event.containerStarted cid],
        tracker := update_execution_status st.tracker session_id .running (some cid) }
      match env.waitResult with
      | none =>
        -- timeout or wait error: mark failed, stop, force-remove
        let st := { st with tracker := update_execution_status st.tracker session_id .failed none }
        let st := { st with trace := st.trace ++
          [Event.containerStopped cid, Event.containerRemoved cid true] }
        ({ success := false, error := some "Container execution timed out or failed" }, st)
      | some exit_code =>
      -- the container ran to completion: its writes are now in the tree
      let st := { st with vols := applyWrites st.vols session_id env.writes }
      let logs := env.logs
      if exit_code != 0 then
        let st := { st with tracker := update_execution_status st.tracker session_id .failed none }
        let st := { st with trace := st.trace ++ [Event.containerRemoved cid true] }
        ({ success := false,
           error := some ("Container exited with code " ++ toString exit_code),
           logs := some logs }, st)
      else
        match read_output_json st.vols session_id with
        | none =>
          -- exit 0 but no readable output.json: structured failure with
          -- logs; no tracker update and no container removal on this path
          ({ success := false, error := some "Failed to read output JSON",
             logs := some logs }, st)
        | some output_data =>
        -- validate_output is warning-only: a violation is logged and
        -- execution continues with the original payload
        let st := if env.outputValid then st
          else { st with trace := st.trace ++ [Event.outputValidationWarned session_id] }
        let output_files := list_output_files st.vols session_id
        let st := { st with trace := st.trace ++ [Event.containerRemoved cid true] }
        let st := { st with tracker := update_execution_status st.tracker session_id .completed none }
        ({ success := true, output := some output_data, files := output_files,
           session_id := some session_id }, st)

/-- Model of `CapsuleExecutor.execute_capsule`: registration, the pre-`try`
rejection paths (capsule not found, validator exception, input-schema
violation), then the body, then the `finally` that best-effort removes
the session volume.  The state tracker is wired (as in the running
service) and the caller supplies the minted session id and clock. -/
def executeCapsule (env : ExecEnv) (now : Int) (capsule_name : String)
    (input_data : List (String × JVal)) (input_files : Option (List (String × String)))
    (session_id : String) (parent_session_id : Option String)
    (st : OrchState) : Response × OrchState :=
  let st := { st with
    tracker := register_execution st.tracker now session_id capsule_name none
      parent_session_id }
  if !env.capsuleFound then
    ({ success := false,
       error := some ("Capsule " ++ capsule_name ++ " not found in registry") }, st)
  else if env.validatorRaises then
    ({ success := false, error := some "Schema validation error" }, st)
  else if !env.inputValid then
    ({ success := false, error := some "Input validation failed" }, st)
  else
    let r := executeCapsuleBody env session_id input_data input_files st
    (r.1, { r.2 with vols := (remove_session_volume r.2.vols session_id).1 })

/-- Model of `CapsuleExecutor.cleanup_session`. -/
def cleanupSession (st : OrchState) (session_id : String) : OrchState :=
  { st with vols := (remove_session_volume st.vols session_id).1 }

/-! ## HandoffHandler (`handoff_handler.py`) -/

/-- Keep the first occurrence of each element (Python dict keys keep the
position of the first insertion). -/
def dedupKeepFirst (l : List String) : List String :=
  go [] l
where
  go (seen : List String) : List String → List String
    | [] => []
    | x :: xs => if seen.contains x then go seen xs else x :: go (seen ++ [x]) xs

/-- The arg-partition loop of `process_handoff` (lines 74-87): the string
values that name a file in the caller's `handoff/outgoing/` become the
keys of `input_files` (a dict, so duplicates collapse to the first
occurrence).  Both branches of the loop store the value unchanged in
`processed_args`, so `processed_args` equals `args`. -/
def handoffFileRefs (vols : Volumes) (caller_session_id : String)
    (args : List (String × JVal)) : List String :=
  dedupKeepFirst (args.filterMap (fun kv =>
    match kv.2 with
    | .str s =>
      if file_exists_in_handoff_outgoing vols caller_session_id s then some s else none
    | _ => none))

/-- The file-reference copy loop (lines 103-122): copy each reference from
the caller's `handoff/outgoing/` into the target's `input/`, stopping
with an error response on the first failure. -/
def copyRefsToTarget (vols : Volumes) (caller_session_id target_session_id : String) :
    List String → Volumes × Bool
  | [] => (vols, true)
  | f :: rest =>
    match copy_handoff_outgoing vols caller_session_id target_session_id f with
    | (v, true) => copyRefsToTarget v caller_session_id target_session_id rest
    | (v, false) => (v, false)

/-- The output-delivery loop (lines 151-160): copy each of the target's
output files into the caller's `handoff/incoming/`; a failed copy is only
logged (a warning) and the loop continues. -/
def copyOutputsToCaller (vols : Volumes) (target_session_id caller_session_id : String) :
    List String → Volumes
  | [] => vols
  | f :: rest =>
    let r := copy_handoff_incoming vols target_session_id caller_session_id f
    copyOutputsToCaller r.1 target_session_id caller_session_id rest

/-- The handoff-level external outcomes: target registry lookup plus the
environment of the nested `execute_capsule` call. -/
structure HandoffEnv where
  targetFound : Bool := true
  exec : ExecEnv := {}

/-- Model of `HandoffHandler.process_handoff`: resolve the target, identify file
references, resolve the caller capsule, copy references in, execute the
target capsule (with `parent_session_id` set and `input_files = None`),
register the handoff edge only when the caller capsule resolved, deliver
output files to the caller's `handoff/incoming/`, clean up the target
session (again in the `finally`), and return the target's output. -/
def processHandoff (henv : HandoffEnv) (now : Int)
    (caller_session_id target_capsule : String) (args : List (String × JVal))
    (target_session_id : String) (st : OrchState) : Response × OrchState :=
  if !henv.targetFound then
    ({ success := false,
       error := some ("Target capsule " ++ target_capsule ++ " not found") }, st)
  else
    let fileRefs := handoffFileRefs st.vols caller_session_id args
    -- processed_args: both branches of the partition loop keep each value
    -- unchanged, so the dict handed to the executor equals `args`
    let processed_args := args
    let caller_capsule := get_capsule_name st.tracker caller_session_id
    match copyRefsToTarget st.vols caller_session_id target_session_id fileRefs with
    | (v1, false) =>
      -- error return from inside the `try`; the `finally` still cleans up
      -- the target session
      ({ success := false, error := some "Failed to copy file to target capsule" },
       cleanupSession { st with vols := v1 } target_session_id)
    | (v1, true) =>
    let st := { st with vols := v1 }
    let r := executeCapsule henv.exec now target_capsule processed_args none
      target_session_id (some caller_session_id) st
    let result := r.1
    let st := r.2
    -- register the handoff edge (only if the caller capsule is known)
    let st := match caller_capsule with
      | some cc =>
        { st with
          tracker := register_handoff st.tracker now caller_session_id cc
            target_capsule target_session_id result.success }
      | none => st
    if !result.success then
      (result, cleanupSession st target_session_id)
    else
      let output_files := result.files
      let st := { st with
        vols := copyOutputsToCaller st.vols target_session_id caller_session_id
          output_files }
      let st := cleanupSession st target_session_id
      -- the `finally` cleans the (already removed) target session once more
      ({ success := true, output := some (result.output.getD (JVal.obj [])),
         files := output_files }, cleanupSession st target_session_id)

/-! ## Derived observations used by the statements -/

/-- The status the tracker holds for a session. -/
def sessionStatus (st : OrchState) (session_id : String) : Option Status :=
  (alookup st.tracker.executions session_id).map (fun r => r.status)

/-- A `containerStarted` event for `cid` occurs in the trace. -/
def startedInTrace (tr : List Event) (cid : Nat) : Bool :=
  tr.any (fun e => match e with
    | .containerStarted c => c == cid
    | _ => false)

/-- A `containerRemoved` event for `cid` occurs in the trace. -/
def removedInTrace (tr : List Event) (cid : Nat) : Bool :=
  tr.any (fun e => match e with
    | .containerRemoved c _ => c == cid
    | _ => false)

/-- A `containerStopped` event for `cid` occurs in the trace. -/
def stoppedInTrace (tr : List Event) (cid : Nat) : Bool :=
  tr.any (fun e => match e with
    | .containerStopped c => c == cid
    | _ => false)

/-- The content of the file `name` in the `input/` directory of a session. -/
def inputFileAt (vols : Volumes) (session_id name : String) : Option String :=
  (alookup vols session_id).bind (fun t => alookup t.input name)

/-- The content of the file `name` in the `handoff/incoming/` directory. -/
def incomingFileAt (vols : Volumes) (session_id name : String) : Option String :=
  (alookup vols session_id).bind (fun t => alookup t.incoming name)

/-- The tracker status with which each return path of the `try` body of
`execute_capsule` leaves the session record: terminal only on the
in-`try` exception, container-start-failure, timeout, non-zero-exit and
success paths; still `running` after a staging or build failure and on
the exit-0-but-unreadable-`output.json` path. -/
def expectedBodyStatus (env : ExecEnv) (input_files : Option (List (String × String))) : Status :=
  if env.createVolumeRaises then .failed
  else if !((input_files.getD []).all (fun p => os_path_exists env.host p.2)) then .running
  else if !env.buildOk then .running
  else
    match env.runContainer with
    | none => .failed
    | some _ =>
      match env.waitResult with
      | none => .failed
      | some c =>
        if c != 0 then .failed
        else
          match env.writes.outputJson with
          | some (.valid _) => .completed
          | _ => .running

/-- The tracker status with which each return path of `execute_capsule`
leaves the session record: the early rejections (capsule not found,
validator exception, input-schema violation) leave it `running`, the rest
is decided by the `try` body. -/
def expectedStatus (env : ExecEnv) (input_files : Option (List (String × String))) : Status :=
  if !env.capsuleFound then .running
  else if env.validatorRaises then .running
  else if !env.inputValid then .running
  else expectedBodyStatus env input_files

/-- The value a resolving element of the `'files'` list is rewritten to;
non-strings and non-resolving strings are kept unchanged. -/
def stageElemVal (host : Host) (v : JVal) : JVal :=
  match v with
  | .str s => if os_path_exists host s then .str ("/io/input/" ++ basename s) else v
  | _ => v

/-- Well-formed tracker: each record is keyed by its own session id and
the keys are unique — true of every state reached through the API. -/
def TrackerWF (tr : StateTracker) : Prop :=
  (∀ p ∈ tr.executions, p.2.session_id = p.1) ∧
    (tr.executions.map (fun p => p.1)).Nodup

/-- The execution-retention criterion exactly as the claim words it:
running, or at most 30 seconds since REACHING a terminal status.  It is
stated over the time the execution reached its terminal status — a
quantity the code's record does not store — in order to compare the claim
with what `get_state` computes. -/
def claimExecIncluded (now : Int) (status : Status) (terminal_time : Option Int) : Bool :=
  decide (status = .running) ||
    (match terminal_time with
     | some t => decide (now - t ≤ 30)
     | none => false)

/-! ## Basic lemmas about the association-list model -/

theorem alookup_aset_self {α : Type} (l : List (String × α)) (k : String) (v : α) :
    alookup (aset l k v) k = some v := by
  induction l with
  | nil => simp [aset, alookup]
  | cons p t ih =>
    by_cases h : p.1 = k
    · simp [aset, h, alookup]
    · simp [aset, h, alookup, ih]

theorem alookup_aset_ne {α : Type} (l : List (String × α)) (k k2 : String) (v : α)
    (h : k ≠ k2) : alookup (aset l k v) k2 = alookup l k2 := by
  induction l with
  | nil => simp [aset, alookup, h]
  | cons p t ih =>
    by_cases hp : p.1 = k
    · simp [aset, hp, alookup, h]
    · simp [aset, hp, alookup, ih]

theorem alookup_aerase_self {α : Type} (l : List (String × α)) (k : String) :
    alookup (aerase l k) k = none := by
  induction l with
  | nil => simp [aerase, alookup]
  | cons p t ih =>
    by_cases h : p.1 = k
    · simpa [aerase, h] using ih
    · simpa [aerase, h, alookup] using ih

theorem alookup_isSome_aset {α : Type} (l : List (String × α)) (k k2 : String) (v : α)
    (h : (alookup l k2).isSome) : (alookup (aset l k v) k2).isSome := by
  by_cases hk : k = k2
  · subst hk; simp [alookup_aset_self]
  · rwa [alookup_aset_ne l k k2 v hk]

theorem alookup_mem {α : Type} {l : List (String × α)} {k : String} {v : α}
    (h : alookup l k = some v) : (k, v) ∈ l := by
  induction l with
  | nil => simp [alookup] at h
  | cons p t ih =>
    by_cases hp : p.1 = k
    · simp [alookup, hp] at h
      cases p
      simp_all
    · simp [alookup, hp] at h
      exact List.mem_cons_of_mem _ (ih h)

/-! ## Lemmas about staging, volumes and the tracker -/

theorem copy_to_input_snd (host : Host) (vols : Volumes) (src sid : String)
    (fn : Option String) :
    (copy_to_input host vols src sid fn).2 = os_path_exists host src := by
  unfold copy_to_input os_path_exists
  cases hostLookup host src <;> simp

theorem copy_to_input_preserves (host : Host) (vols : Volumes) (src sid sid2 : String)
    (fn : Option String) (h : (alookup vols sid2).isSome) :
    (alookup (copy_to_input host vols src sid fn).1 sid2).isSome := by
  unfold copy_to_input
  cases hostLookup host src
  · simpa using h
  · simpa using alookup_isSome_aset _ _ _ _ h

theorem stageInputFiles_snd (host : Host) (sid : String) (fs : List (String × String)) :
    ∀ vols, (stageInputFiles host vols sid fs).2 = fs.all (fun p => os_path_exists host p.2) := by
  induction fs with
  | nil => intro vols; simp [stageInputFiles]
  | cons p rest ih =>
    intro vols
    unfold stageInputFiles
    rcases hc : copy_to_input host vols p.2 sid (some p.1) with ⟨v, ok⟩
    have hok : ok = os_path_exists host p.2 := by
      have := copy_to_input_snd host vols p.2 sid (some p.1)
      rw [hc] at this
      exact this
    cases ok
    · simp [← hok]
    · simp [← hok, ih]

theorem stageInputFiles_preserves (host : Host) (sid sid2 : String)
    (fs : List (String × String)) :
    ∀ vols, (alookup vols sid2).isSome →
      (alookup (stageInputFiles host vols sid fs).1 sid2).isSome := by
  induction fs with
  | nil => intro vols h; simpa [stageInputFiles] using h
  | cons p rest ih =>
    intro vols h
    unfold stageInputFiles
    rcases hc : copy_to_input host vols p.2 sid (some p.1) with ⟨v, ok⟩
    have hv : (alookup v sid2).isSome := by
      have := copy_to_input_preserves host vols p.2 sid sid2 (some p.1) h
      rw [hc] at this
      exact this
    cases ok
    · simpa using hv
    · simpa using ih v hv

theorem stageFileKey_ok (host : Host) (vols : Volumes) (sid : String)
    (d : List (String × JVal)) : (stageFileKey host vols sid d).2.2 = true := by
  unfold stageFileKey
  cases hf : alookup d "file" with
  | none => rfl
  | some v =>
    cases htr : v.truthy
    · simp [htr]
    · cases v with
      | str s =>
        cases hex : os_path_exists host s with
        | false => simp [htr, hex]
        | true =>
          have hc : (copy_to_input host vols s sid (some (basename s))).2 = true := by
            rw [copy_to_input_snd]; exact hex
          rcases hcc : copy_to_input host vols s sid (some (basename s)) with ⟨v2, ok⟩
          rw [hcc] at hc
          simp at hc
          subst hc
          simp [htr, hex, hcc]
      | num n => simp [htr]
      | bool b => simp [htr]
      | null => simp [htr]
      | list xs => simp [htr]
      | obj fs => simp [htr]

theorem stageFileKey_preserves (host : Host) (vols : Volumes) (sid sid2 : String)
    (d : List (String × JVal)) (h : (alookup vols sid2).isSome) :
    (alookup (stageFileKey host vols sid d).2.1 sid2).isSome := by
  unfold stageFileKey
  cases hf : alookup d "file" with
  | none => simpa using h
  | some v =>
    cases htr : v.truthy
    · simpa [htr] using h
    · cases v with
      | str s =>
        cases hex : os_path_exists host s with
        | false => simpa [htr, hex] using h
        | true =>
          rcases hcc : copy_to_input host vols s sid (some (basename s)) with ⟨v2, ok⟩
          have hv : (alookup v2 sid2).isSome := by
            have := copy_to_input_preserves host vols s sid sid2 (some (basename s)) h
            rw [hcc] at this
            exact this
          cases ok <;> simpa [htr, hex, hcc] using hv
      | num n => simpa [htr] using h
      | bool b => simpa [htr] using h
      | null => simpa [htr] using h
      | list xs => simpa [htr] using h
      | obj fs => simpa [htr] using h

theorem stageFilesElems_ok (host : Host) (sid : String) (xs : List JVal) :
    ∀ vols, (stageFilesElems host vols sid xs).2.2 = true := by
  induction xs with
  | nil => intro vols; rfl
  | cons v rest ih =>
    intro vols
    unfold stageFilesElems
    cases v with
    | str s =>
      cases hex : os_path_exists host s with
      | false =>
        rcases hr : stageFilesElems host vols sid rest with ⟨vs, v3, ok⟩
        have := ih vols
        rw [hr] at this
        simp at this
        subst this
        simp [hex, hr]
      | true =>
        have hc : (copy_to_input host vols s sid (some (basename s))).2 = true := by
          rw [copy_to_input_snd]; exact hex
        rcases hcc : copy_to_input host vols s sid (some (basename s)) with ⟨v2, ok⟩
        rw [hcc] at hc
        simp at hc
        subst hc
        rcases hr : stageFilesElems host v2 sid rest with ⟨vs, v3, ok2⟩
        have := ih v2
        rw [hr] at this
        simp at this
        subst this
        simp [hex, hcc, hr]
    | num n =>
      rcases hr : stageFilesElems host vols sid rest with ⟨vs, v3, ok⟩
      have := ih vols
      rw [hr] at this
      simp at this
      subst this
      simp [hr]
    | bool b =>
      rcases hr : stageFilesElems host vols sid rest with ⟨vs, v3, ok⟩
      have := ih vols
      rw [hr] at this
      simp at this
      subst this
      simp [hr]
    | null =>
      rcases hr : stageFilesElems host vols sid rest with ⟨vs, v3, ok⟩
      have := ih vols
      rw [hr] at this
      simp at this
      subst this
      simp [hr]
    | list ys =>
      rcases hr : stageFilesElems host vols sid rest with ⟨vs, v3, ok⟩
      have := ih vols
      rw [hr] at this
      simp at this
      subst this
      simp [hr]
    | obj fs =>
      rcases hr : stageFilesElems host vols sid rest with ⟨vs, v3, ok⟩
      have := ih vols
      rw [hr] at this
      simp at this
      subst this
      simp [hr]

theorem stageFilesElems_preserves (host : Host) (sid sid2 : String) (xs : List JVal) :
    ∀ vols, (alookup vols sid2).isSome →
      (alookup (stageFilesElems host vols sid xs).2.1 sid2).isSome := by
  induction xs with
  | nil => intro vols h; simpa [stageFilesElems] using h
  | cons v rest ih =>
    intro vols h
    unfold stageFilesElems
    cases v with
    | str s =>
      cases hex : os_path_exists host s with
      | false =>
        rcases hr : stageFilesElems host vols sid rest with ⟨vs, v3, ok⟩
        have := ih vols h
        rw [hr] at this
        simpa [hex, hr] using this
      | true =>
        rcases hcc : copy_to_input host vols s sid (some (basename s)) with ⟨v2, ok⟩
        have hv : (alookup v2 sid2).isSome := by
          have := copy_to_input_preserves host vols s sid sid2 (some (basename s)) h
          rw [hcc] at this
          exact this
        cases ok
        · simpa [hex, hcc] using hv
        · rcases hr : stageFilesElems host v2 sid rest with ⟨vs, v3, ok2⟩
          have := ih v2 hv
          rw [hr] at this
          simpa [hex, hcc, hr] using this
    | num n =>
      rcases hr : stageFilesElems host vols sid rest with ⟨vs, v3, ok⟩
      have := ih vols h
      rw [hr] at this
      simpa [hr] using this
    | bool b =>
      rcases hr : stageFilesElems host vols sid rest with ⟨vs, v3, ok⟩
      have := ih vols h
      rw [hr] at this
      simpa [hr] using this
    | null =>
      rcases hr : stageFilesElems host vols sid rest with ⟨vs, v3, ok⟩
      have := ih vols h
      rw [hr] at this
      simpa [hr] using this
    | list ys =>
      rcases hr : stageFilesElems host vols sid rest with ⟨vs, v3, ok⟩
      have := ih vols h
      rw [hr] at this
      simpa [hr] using this
    | obj fs =>
      rcases hr : stageFilesElems host vols sid rest with ⟨vs, v3, ok⟩
      have := ih vols h
      rw [hr] at this
      simpa [hr] using this

theorem stageFilesKey_ok (host : Host) (vols : Volumes) (sid : String)
    (d : List (String × JVal)) : (stageFilesKey host vols sid d).2.2 = true := by
  unfold stageFilesKey
  cases hf : alookup d "files" with
  | none => rfl
  | some v =>
    cases htr : v.truthy
    · simp [htr]
    · cases v with
      | list xs =>
        rcases hr : stageFilesElems host vols sid xs with ⟨xs2, v2, ok⟩
        have := stageFilesElems_ok host sid xs vols
        rw [hr] at this
        simp at this
        subst this
        simp [htr, hr]
      | str s => simp [htr]
      | num n => simp [htr]
      | bool b => simp [htr]
      | null => simp [htr]
      | obj fs => simp [htr]

theorem stageFilesKey_preserves (host : Host) (vols : Volumes) (sid sid2 : String)
    (d : List (String × JVal)) (h : (alookup vols sid2).isSome) :
    (alookup (stageFilesKey host vols sid d).2.1 sid2).isSome := by
  unfold stageFilesKey
  cases hf : alookup d "files" with
  | none => simpa using h
  | some v =>
    cases htr : v.truthy
    · simpa [htr] using h
    · cases v with
      | list xs =>
        rcases hr : stageFilesElems host vols sid xs with ⟨xs2, v2, ok⟩
        have := stageFilesElems_preserves host sid sid2 xs vols h
        rw [hr] at this
        cases ok <;> simpa [htr, hr] using this
      | str s => simpa [htr] using h
      | num n => simpa [htr] using h
      | bool b => simpa [htr] using h
      | null => simpa [htr] using h
      | obj fs => simpa [htr] using h

theorem create_session_volume_self (vols : Volumes) (sid : String) :
    (alookup (create_session_volume vols sid) sid).isSome := by
  unfold create_session_volume
  cases h : alookup vols sid
  · simp [alookup_aset_self]
  · simp [h]

theorem write_input_json_snd (vols : Volumes) (sid : String)
    (p : List (String × JVal)) :
    (write_input_json vols sid p).2 = (alookup vols sid).isSome := by
  unfold write_input_json
  cases alookup vols sid <;> simp

theorem read_after_applyWrites (vols : Volumes) (sid : String) (w : ContainerWrites)
    (h : (alookup vols sid).isSome) :
    read_output_json (applyWrites vols sid w) sid =
      (match w.outputJson with
       | some (.valid v) => some v
       | _ => none) := by
  unfold applyWrites read_output_json
  cases ht : alookup vols sid with
  | none => rw [ht] at h; simp at h
  | some t =>
    simp only [ht, alookup_aset_self]
    cases w.outputJson with
    | none => rfl
    | some jt => cases jt <;> rfl

theorem write_input_json_preserves (vols : Volumes) (sid sid2 : String)
    (p : List (String × JVal)) (h : (alookup vols sid2).isSome) :
    (alookup (write_input_json vols sid p).1 sid2).isSome := by
  unfold write_input_json
  cases alookup vols sid
  · simpa using h
  · simpa using alookup_isSome_aset _ _ _ _ h

theorem applyWrites_preserves (vols : Volumes) (sid sid2 : String) (w : ContainerWrites)
    (h : (alookup vols sid2).isSome) :
    (alookup (applyWrites vols sid w) sid2).isSome := by
  unfold applyWrites
  cases alookup vols sid
  · simpa using h
  · simpa using alookup_isSome_aset _ _ _ _ h

theorem register_execution_status (tr : StateTracker) (now : Int) (sid n : String)
    (c : Option Nat) (p : Option String) :
    (alookup (register_execution tr now sid n c p).executions sid).map
      (fun r => r.status) = some .running := by
  simp [register_execution, alookup_aset_self]

theorem update_execution_status_status (tr : StateTracker) (sid : String) (s : Status)
    (c : Option Nat) (h : (alookup tr.executions sid).isSome) :
    (alookup (update_execution_status tr sid s c).executions sid).map
      (fun r => r.status) = some s := by
  unfold update_execution_status
  cases hr : alookup tr.executions sid with
  | none => rw [hr] at h; simp at h
  | some r =>
    cases c <;> simp [alookup_aset_self]

theorem update_execution_status_isSome (tr : StateTracker) (sid : String) (s : Status)
    (c : Option Nat) (h : (alookup tr.executions sid).isSome) :
    (alookup (update_execution_status tr sid s c).executions sid).isSome := by
  have := update_execution_status_status tr sid s c h
  cases hr : alookup (update_execution_status tr sid s c).executions sid
  · rw [hr] at this; simp at this
  · simp

/-- Status of the session record after `st.tracker` is replaced: only the
tracker matters. -/
theorem sessionStatus_mk (v : Volumes) (tr : StateTracker) (e : List Event)
    (sid : String) :
    sessionStatus { vols := v, tracker := tr, trace := e } sid =
      (alookup tr.executions sid).map (fun r => r.status) := rfl

/-- The status in which the `try` body of `execute_capsule` leaves the
session record, for every combination of environment outcomes. -/
theorem executeCapsuleBody_status (env : ExecEnv) (sid : String)
    (d : List (String × JVal)) (fs : Option (List (String × String))) (st : OrchState)
    (hpre : sessionStatus st sid = some .running) :
    sessionStatus (executeCapsuleBody env sid d fs st).2 sid =
      some (expectedBodyStatus env fs) := by
  have hsome : (alookup st.tracker.executions sid).isSome := by
    unfold sessionStatus at hpre
    cases h : alookup st.tracker.executions sid
    · rw [h] at hpre; simp at hpre
    · simp
  unfold executeCapsuleBody expectedBodyStatus
  cases hcv : env.createVolumeRaises
  case true =>
    simpa [hcv, sessionStatus] using
      update_execution_status_status st.tracker sid .failed none hsome
  case false =>
  simp only [hcv, Bool.false_eq_true, if_false]
  have hcreate := create_session_volume_self st.vols sid
  rcases h1 : stageInputFiles env.host (create_session_volume st.vols sid) sid
    (fs.getD []) with ⟨v1, ok1⟩
  have hall : ok1 = (fs.getD []).all (fun p => os_path_exists env.host p.2) := by
    have := stageInputFiles_snd env.host sid (fs.getD []) (create_session_volume st.vols sid)
    rw [h1] at this
    exact this
  cases ok1
  case false =>
    dsimp only
    rw [← hall]
    simpa [sessionStatus] using hpre
  case true =>
  dsimp only
  rw [← hall]
  simp only [Bool.not_true, Bool.false_eq_true, if_false]
  have hv1 : (alookup v1 sid).isSome := by
    have := stageInputFiles_preserves env.host sid sid (fs.getD [])
      (create_session_volume st.vols sid) hcreate
    rw [h1] at this
    exact this
  rcases h2 : stageFileKey env.host v1 sid d with ⟨d1, v2, ok2⟩
  have hok2 : ok2 = true := by
    have := stageFileKey_ok env.host v1 sid d
    rw [h2] at this
    exact this
  subst hok2
  have hv2 : (alookup v2 sid).isSome := by
    have := stageFileKey_preserves env.host v1 sid sid d hv1
    rw [h2] at this
    exact this
  dsimp only
  rcases h3 : stageFilesKey env.host v2 sid d1 with ⟨d2, v3, ok3⟩
  have hok3 : ok3 = true := by
    have := stageFilesKey_ok env.host v2 sid d1
    rw [h3] at this
    exact this
  subst hok3
  have hv3 : (alookup v3 sid).isSome := by
    have := stageFilesKey_preserves env.host v2 sid sid d1 hv2
    rw [h3] at this
    exact this
  dsimp only
  rcases h4 : write_input_json v3 sid d2 with ⟨v4, ok4⟩
  have hok4 : ok4 = true := by
    have := write_input_json_snd v3 sid d2
    rw [h4, hv3] at this
    exact this
  subst hok4
  have hv4 : (alookup v4 sid).isSome := by
    have := write_input_json_preserves v3 sid sid d2 hv3
    rw [h4] at this
    exact this
  dsimp only
  cases hb : env.buildOk
  case false =>
    simpa [hb, sessionStatus] using hpre
  case true =>
  simp only [hb, Bool.not_true, Bool.false_eq_true, if_false]
  cases hrc : env.runContainer
  case none =>
    simpa [hrc, sessionStatus] using
      update_execution_status_status st.tracker sid .failed none hsome
  case some cid =>
  simp only [hrc]
  have hrun : (alookup (update_execution_status st.tracker sid .running
      (some cid)).executions sid).isSome :=
    update_execution_status_isSome st.tracker sid .running (some cid) hsome
  cases hw : env.waitResult
  case none =>
    simpa [hw, sessionStatus] using
      update_execution_status_status
        (update_execution_status st.tracker sid .running (some cid)) sid .failed none hrun
  case some c =>
  simp only [hw]
  cases hne : (c != 0)
  case true =>
    simpa [hne, sessionStatus] using
      update_execution_status_status
        (update_execution_status st.tracker sid .running (some cid)) sid .failed none hrun
  case false =>
  simp only [hne, Bool.false_eq_true, if_false]
  have hread := read_after_applyWrites v4 sid env.writes hv4
  rw [hread]
  cases hoj : env.writes.outputJson
  case none =>
    simpa [hoj, sessionStatus] using
      update_execution_status_status st.tracker sid .running (some cid) hsome
  case some jt =>
  cases jt
  case invalid =>
    simpa [hoj, sessionStatus] using
      update_execution_status_status st.tracker sid .running (some cid) hsome
  case valid v =>
  cases ho : env.outputValid <;>
    simpa [hoj, ho, sessionStatus] using
      update_execution_status_status
        (update_execution_status st.tracker sid .running (some cid)) sid .completed none hrun

/-- The status in which `execute_capsule` leaves the session record, for
every input and every combination of environment outcomes. -/
theorem executeCapsule_status (env : ExecEnv) (now : Int) (capsule_name : String)
    (d : List (String × JVal)) (fs : Option (List (String × String)))
    (sid : String) (parent : Option String) (st : OrchState) :
    sessionStatus (executeCapsule env now capsule_name d fs sid parent st).2 sid =
      some (expectedStatus env fs) := by
  unfold executeCapsule expectedStatus
  have hreg := register_execution_status st.tracker now sid capsule_name none parent
  cases hcf : env.capsuleFound
  case false =>
    simpa [hcf, sessionStatus] using hreg
  case true =>
  simp only [hcf, Bool.not_true, Bool.false_eq_true, if_false]
  cases hvr : env.validatorRaises
  case true =>
    simpa [hvr, sessionStatus] using hreg
  case false =>
  simp only [hvr, Bool.false_eq_true, if_false]
  cases hiv : env.inputValid
  case false =>
    simpa [hiv, sessionStatus] using hreg
  case true =>
  simp only [hiv, Bool.not_true, Bool.false_eq_true, if_false]
  have hb := executeCapsuleBody_status env sid d fs
    { st with tracker := register_execution st.tracker now sid capsule_name none parent }
    (by simpa [sessionStatus] using hreg)
  simpa [sessionStatus] using hb

/-- The container events `execute_capsule` emits after the container
started: stop+force-remove on timeout, force-remove on non-zero exit and
on success, and — notably — nothing at all on the exit-0-but-unreadable-
`output.json` path. -/
def traceTail (env : ExecEnv) (sid : String) (cid : Nat) : List Event :=
  match env.waitResult with
  | none => [.containerStopped cid, .containerRemoved cid true]
  | some c =>
    if c != 0 then [.containerRemoved cid true]
    else
      match env.writes.outputJson with
      | some (.valid _) =>
        (if env.outputValid then [] else [.outputValidationWarned sid]) ++
          [.containerRemoved cid true]
      | _ => []

/-- The `input.json` payload as staged by the implicit `'file'`/`'files'`
staging, starting from the volumes `vols` that exist when the implicit
staging begins. -/
def stagedPayload (host : Host) (vols : Volumes) (sid : String)
    (d : List (String × JVal)) : List (String × JVal) :=
  (stageFilesKey host (stageFileKey host vols sid d).2.1 sid
    (stageFileKey host vols sid d).1).1

/-- The full event trace of the `try` body when the container starts:
`input.json` is written (with the staged payload), the container starts,
and then the per-outcome tail follows. -/
theorem executeCapsuleBody_trace (env : ExecEnv) (sid : String)
    (d : List (String × JVal)) (fs : Option (List (String × String))) (st : OrchState)
    (cid : Nat)
    (hcv : env.createVolumeRaises = false)
    (hall : (fs.getD []).all (fun p => os_path_exists env.host p.2) = true)
    (hb : env.buildOk = true)
    (hrc : env.runContainer = some cid) :
    (executeCapsuleBody env sid d fs st).2.trace =
      st.trace ++
        [Event.inputJsonWritten sid
          (stagedPayload env.host
            (stageInputFiles env.host (create_session_volume st.vols sid) sid
              (fs.getD [])).1 sid d),
         Event.containerStarted cid] ++ traceTail env sid cid := by
  unfold executeCapsuleBody traceTail stagedPayload
  simp only [hcv, Bool.false_eq_true, if_false]
  have hcreate := create_session_volume_self st.vols sid
  rcases h1 : stageInputFiles env.host (create_session_volume st.vols sid) sid
    (fs.getD []) with ⟨v1, ok1⟩
  have hok1 : ok1 = true := by
    have := stageInputFiles_snd env.host sid (fs.getD []) (create_session_volume st.vols sid)
    rw [h1, hall] at this
    exact this
  subst hok1
  have hv1 : (alookup v1 sid).isSome := by
    have := stageInputFiles_preserves env.host sid sid (fs.getD [])
      (create_session_volume st.vols sid) hcreate
    rw [h1] at this
    exact this
  dsimp only
  rcases h2 : stageFileKey env.host v1 sid d with ⟨d1, v2, ok2⟩
  have hok2 : ok2 = true := by
    have := stageFileKey_ok env.host v1 sid d
    rw [h2] at this
    exact this
  subst hok2
  have hv2 : (alookup v2 sid).isSome := by
    have := stageFileKey_preserves env.host v1 sid sid d hv1
    rw [h2] at this
    exact this
  dsimp only
  rcases h3 : stageFilesKey env.host v2 sid d1 with ⟨d2, v3, ok3⟩
  have hok3 : ok3 = true := by
    have := stageFilesKey_ok env.host v2 sid d1
    rw [h3] at this
    exact this
  subst hok3
  have hv3 : (alookup v3 sid).isSome := by
    have := stageFilesKey_preserves env.host v2 sid sid d1 hv2
    rw [h3] at this
    exact this
  dsimp only
  rcases h4 : write_input_json v3 sid d2 with ⟨v4, ok4⟩
  have hok4 : ok4 = true := by
    have := write_input_json_snd v3 sid d2
    rw [h4, hv3] at this
    exact this
  subst hok4
  dsimp only
  simp only [hb, Bool.not_true, Bool.false_eq_true, if_false, hrc]
  have hv4 : (alookup v4 sid).isSome := by
    have := write_input_json_preserves v3 sid sid d2 hv3
    rw [h4] at this
    exact this
  have hread := read_after_applyWrites v4 sid env.writes hv4
  cases hw : env.waitResult
  case none => simp
  case some c =>
  cases hne : (c != 0)
  case true =>
    simp [hne]
  case false =>
  simp only [hne, Bool.false_eq_true, if_false]
  rw [hread]
  cases hoj : env.writes.outputJson
  case none => simp
  case some jt =>
  cases jt
  case invalid => simp
  case valid v =>
  cases ho : env.outputValid <;> simp [ho]

/-- The full event trace of `execute_capsule` when the container starts. -/
theorem executeCapsule_trace (env : ExecEnv) (now : Int) (capsule_name : String)
    (d : List (String × JVal)) (fs : Option (List (String × String)))
    (sid : String) (parent : Option String) (st : OrchState) (cid : Nat)
    (hcf : env.capsuleFound = true)
    (hvr : env.validatorRaises = false)
    (hiv : env.inputValid = true)
    (hcv : env.createVolumeRaises = false)
    (hall : (fs.getD []).all (fun p => os_path_exists env.host p.2) = true)
    (hb : env.buildOk = true)
    (hrc : env.runContainer = some cid) :
    (executeCapsule env now capsule_name d fs sid parent st).2.trace =
      st.trace ++
        [Event.inputJsonWritten sid
          (stagedPayload env.host
            (stageInputFiles env.host (create_session_volume st.vols sid) sid
              (fs.getD [])).1 sid d),
         Event.containerStarted cid] ++ traceTail env sid cid := by
  unfold executeCapsule
  simp only [hcf, hvr, hiv, Bool.not_true, Bool.false_eq_true, if_false]
  have hbt := executeCapsuleBody_trace env sid d fs
    { st with
      tracker := register_execution st.tracker now sid capsule_name none parent }
    cid hcv hall hb hrc
  simpa using hbt

/-- Whether `execute_capsule` ever removes the container it started:
`true` on the timeout, non-zero-exit and success paths; `false` when the
container exits 0 but `output.json` is missing or unparsable. -/
def expectedContainerRemoved (env : ExecEnv) : Bool :=
  match env.waitResult with
  | none => true
  | some c =>
    if c != 0 then true
    else
      match env.writes.outputJson with
      | some (.valid _) => true
      | _ => false

/-- Container lifecycle events of `execute_capsule`: the container start
is always recorded, removal happens exactly on the paths of
`expectedContainerRemoved`, and a stop (before the force-remove) happens
exactly on the timeout path. -/
theorem executeCapsule_container_events (env : ExecEnv) (now : Int)
    (capsule_name : String) (d : List (String × JVal))
    (fs : Option (List (String × String))) (sid : String) (parent : Option String)
    (st : OrchState) (cid : Nat)
    (hcf : env.capsuleFound = true)
    (hvr : env.validatorRaises = false)
    (hiv : env.inputValid = true)
    (hcv : env.createVolumeRaises = false)
    (hall : (fs.getD []).all (fun p => os_path_exists env.host p.2) = true)
    (hb : env.buildOk = true)
    (hrc : env.runContainer = some cid) :
    startedInTrace (executeCapsule env now capsule_name d fs sid parent st).2.trace cid
        = true ∧
      removedInTrace (executeCapsule env now capsule_name d fs sid parent st).2.trace cid
        = (removedInTrace st.trace cid || expectedContainerRemoved env) ∧
      stoppedInTrace (executeCapsule env now capsule_name d fs sid parent st).2.trace cid
        = (stoppedInTrace st.trace cid || decide (env.waitResult = none)) := by
  rw [executeCapsule_trace env now capsule_name d fs sid parent st cid
    hcf hvr hiv hcv hall hb hrc]
  unfold startedInTrace removedInTrace stoppedInTrace expectedContainerRemoved traceTail
  refine ⟨by simp, ?_, ?_⟩
  · cases hw : env.waitResult
    case none => simp
    case some c =>
      cases hne : (c != 0)
      case true => simp [hne]
      case false =>
        simp only [hne, Bool.false_eq_true, if_false]
        cases hoj : env.writes.outputJson
        case none => simp
        case some jt =>
          cases jt
          case invalid => simp
          case valid v => cases ho : env.outputValid <;> simp [ho]
  · cases hw : env.waitResult
    case none => simp
    case some c =>
      cases hne : (c != 0)
      case true => simp [hne]
      case false =>
        simp only [hne, Bool.false_eq_true, if_false]
        cases hoj : env.writes.outputJson
        case none => simp
        case some jt =>
          cases jt
          case invalid => simp
          case valid v => cases ho : env.outputValid <;> simp [ho]

/-- When the capsule is unknown or input validation rejects (or the
validator raises), `execute_capsule` returns before the `try` block: the
only state change is the tracker registration — no volume, no file, no
container, no trace event. -/
theorem executeCapsule_early_reject (env : ExecEnv) (now : Int) (capsule_name : String)
    (d : List (String × JVal)) (fs : Option (List (String × String)))
    (sid : String) (parent : Option String) (st : OrchState)
    (h : env.capsuleFound = false ∨ env.validatorRaises = true ∨ env.inputValid = false) :
    (executeCapsule env now capsule_name d fs sid parent st).2 =
        { st with
          tracker := register_execution st.tracker now sid capsule_name none parent } ∧
      (executeCapsule env now capsule_name d fs sid parent st).1.success = false := by
  unfold executeCapsule
  cases hcf : env.capsuleFound
  case false => simp [hcf]
  case true =>
    cases hvr : env.validatorRaises
    case true => simp [hcf, hvr]
    case false =>
      cases hiv : env.inputValid
      case false => simp [hcf, hvr, hiv]
      case true =>
        rcases h with h | h | h
        · rw [hcf] at h; exact absurd h (by simp)
        · rw [hvr] at h; exact absurd h (by simp)
        · rw [hiv] at h; exact absurd h (by simp)

/-- The volumes as `execute_capsule` sees them right after the container
ran (after explicit and implicit staging, the `input.json` write, and the
container's own writes): the state in which `output.json` is read and the
output files are listed. -/
def volsAfterRun (env : ExecEnv) (sid : String) (d : List (String × JVal))
    (fs : Option (List (String × String))) (vols : Volumes) : Volumes :=
  let v1 := (stageInputFiles env.host (create_session_volume vols sid) sid (fs.getD [])).1
  let q2 := stageFileKey env.host v1 sid d
  let q3 := stageFilesKey env.host q2.2.1 sid q2.1
  let v4 := (write_input_json q3.2.1 sid q3.1).1
  applyWrites v4 sid env.writes

/-- The response of `execute_capsule` once the container has started, as a
function of the exit code and of what the container wrote: the timeout,
non-zero-exit, unreadable-`output.json` and success responses. -/
theorem executeCapsule_response (env : ExecEnv) (now : Int) (capsule_name : String)
    (d : List (String × JVal)) (fs : Option (List (String × String)))
    (sid : String) (parent : Option String) (st : OrchState) (cid : Nat)
    (hcf : env.capsuleFound = true)
    (hvr : env.validatorRaises = false)
    (hiv : env.inputValid = true)
    (hcv : env.createVolumeRaises = false)
    (hall : (fs.getD []).all (fun p => os_path_exists env.host p.2) = true)
    (hb : env.buildOk = true)
    (hrc : env.runContainer = some cid) :
    (executeCapsule env now capsule_name d fs sid parent st).1 =
      (match env.waitResult with
       | none =>
         { success := false, error := some "Container execution timed out or failed" }
       | some c =>
         if c != 0 then
           { success := false,
             error := some ("Container exited with code " ++ toString c),
             logs := some env.logs }
         else
           match env.writes.outputJson with
           | some (.valid v) =>
             { success := true, output := some v,
               files := list_output_files (volsAfterRun env sid d fs st.vols) sid,
               session_id := some sid }
           | _ =>
             { success := false, error := some "Failed to read output JSON",
               logs := some env.logs }) := by
  unfold executeCapsule
  simp only [hcf, hvr, hiv, Bool.not_true, Bool.false_eq_true, if_false]
  unfold executeCapsuleBody volsAfterRun
  simp only [hcv, Bool.false_eq_true, if_false]
  have hcreate := create_session_volume_self st.vols sid
  rcases h1 : stageInputFiles env.host (create_session_volume st.vols sid) sid
    (fs.getD []) with ⟨v1, ok1⟩
  have hok1 : ok1 = true := by
    have := stageInputFiles_snd env.host sid (fs.getD []) (create_session_volume st.vols sid)
    rw [h1, hall] at this
    exact this
  subst hok1
  have hv1 : (alookup v1 sid).isSome := by
    have := stageInputFiles_preserves env.host sid sid (fs.getD [])
      (create_session_volume st.vols sid) hcreate
    rw [h1] at this
    exact this
  dsimp only
  rcases h2 : stageFileKey env.host v1 sid d with ⟨d1, v2, ok2⟩
  have hok2 : ok2 = true := by
    have := stageFileKey_ok env.host v1 sid d
    rw [h2] at this
    exact this
  subst hok2
  have hv2 : (alookup v2 sid).isSome := by
    have := stageFileKey_preserves env.host v1 sid sid d hv1
    rw [h2] at this
    exact this
  dsimp only
  rcases h3 : stageFilesKey env.host v2 sid d1 with ⟨d2, v3, ok3⟩
  have hok3 : ok3 = true := by
    have := stageFilesKey_ok env.host v2 sid d1
    rw [h3] at this
    exact this
  subst hok3
  have hv3 : (alookup v3 sid).isSome := by
    have := stageFilesKey_preserves env.host v2 sid sid d1 hv2
    rw [h3] at this
    exact this
  dsimp only
  rcases h4 : write_input_json v3 sid d2 with ⟨v4, ok4⟩
  have hok4 : ok4 = true := by
    have := write_input_json_snd v3 sid d2
    rw [h4, hv3] at this
    exact this
  subst hok4
  have hv4 : (alookup v4 sid).isSome := by
    have := write_input_json_preserves v3 sid sid d2 hv3
    rw [h4] at this
    exact this
  dsimp only
  simp only [hb, Bool.not_true, Bool.false_eq_true, if_false, hrc]
  have hread := read_after_applyWrites v4 sid env.writes hv4
  cases hw : env.waitResult
  case none => simp
  case some c =>
  cases hne : (c != 0)
  case true => simp [hne]
  case false =>
  simp only [hne, Bool.false_eq_true, if_false]
  rw [hread]
  cases hoj : env.writes.outputJson
  case none => simp
  case some jt =>
  cases jt
  case invalid => simp
  case valid v =>
  cases ho : env.outputValid <;> simp [ho]

/-! ## Lemmas for the implicit file staging (claim C4) -/

theorem os_path_exists_ne_empty (host : Host) (s : String)
    (h : os_path_exists host s = true) : (s == "") = false := by
  unfold os_path_exists hostLookup at h
  by_cases hs : s = ""
  · rw [if_pos hs] at h; simp at h
  · simp [hs]

theorem copy_to_input_inputFileAt_self (host : Host) (vols : Volumes) (s sid : String)
    (hex : os_path_exists host s = true) :
    inputFileAt (copy_to_input host vols s sid (some (basename s))).1 sid (basename s) =
      hostLookup host s := by
  unfold os_path_exists at hex
  unfold copy_to_input inputFileAt
  cases hc : hostLookup host s with
  | none => rw [hc] at hex; simp at hex
  | some content => simp [hc, alookup_aset_self]

theorem copy_to_input_inputFileAt_other (host : Host) (vols : Volumes)
    (s sid b : String) (fn : String) (hb : b ≠ fn) :
    inputFileAt (copy_to_input host vols s sid (some fn)).1 sid b =
      inputFileAt vols sid b := by
  unfold copy_to_input inputFileAt
  cases hc : hostLookup host s with
  | none => rfl
  | some content =>
    simp only [alookup_aset_self, Option.bind]
    cases hv : alookup vols sid with
    | none =>
      simp only [hv]
      have : alookup (aset ([] : List (String × String)) fn content) b = none := by
        rw [alookup_aset_ne _ fn b content (fun h => hb h.symm)]
        rfl
      simpa [SessionTree] using this
    | some t =>
      simp only [hv]
      simpa using alookup_aset_ne t.input fn b content (fun h => hb h.symm)

theorem stageFilesElems_fst (host : Host) (sid : String) (xs : List JVal) :
    ∀ vols, (stageFilesElems host vols sid xs).1 = xs.map (stageElemVal host) := by
  induction xs with
  | nil => intro vols; rfl
  | cons v rest ih =>
    intro vols
    unfold stageFilesElems
    cases v with
    | str s =>
      cases hex : os_path_exists host s with
      | false =>
        rcases hr : stageFilesElems host vols sid rest with ⟨vs, v3, ok⟩
        have := ih vols
        rw [hr] at this
        simp only at this
        subst this
        simp [stageElemVal, hex, hr]
      | true =>
        rcases hcc : copy_to_input host vols s sid (some (basename s)) with ⟨v2, ok⟩
        have hok : ok = true := by
          have := copy_to_input_snd host vols s sid (some (basename s))
          rw [hcc, hex] at this
          exact this
        subst hok
        rcases hr : stageFilesElems host v2 sid rest with ⟨vs, v3, ok2⟩
        have := ih v2
        rw [hr] at this
        simp only at this
        subst this
        simp [stageElemVal, hex, hcc, hr]
    | num n =>
      rcases hr : stageFilesElems host vols sid rest with ⟨vs, v3, ok⟩
      have := ih vols
      rw [hr] at this
      simp only at this
      subst this
      simp [stageElemVal, hr]
    | bool b =>
      rcases hr : stageFilesElems host vols sid rest with ⟨vs, v3, ok⟩
      have := ih vols
      rw [hr] at this
      simp only at this
      subst this
      simp [stageElemVal, hr]
    | null =>
      rcases hr : stageFilesElems host vols sid rest with ⟨vs, v3, ok⟩
      have := ih vols
      rw [hr] at this
      simp only at this
      subst this
      simp [stageElemVal, hr]
    | list ys =>
      rcases hr : stageFilesElems host vols sid rest with ⟨vs, v3, ok⟩
      have := ih vols
      rw [hr] at this
      simp only at this
      subst this
      simp [stageElemVal, hr]
    | obj fs =>
      rcases hr : stageFilesElems host vols sid rest with ⟨vs, v3, ok⟩
      have := ih vols
      rw [hr] at this
      simp only at this
      subst this
      simp [stageElemVal, hr]

/-- After the `'files'` element loop, the file at name `b` in the
session's `input/` either is what it was before the loop, or is the
content of some resolving string element of the list whose basename is
`b` (a later element with the same basename overwrites an earlier one). -/
theorem stageFilesElems_inputFileAt (host : Host) (sid b : String) (xs : List JVal) :
    ∀ vols,
      inputFileAt (stageFilesElems host vols sid xs).2.1 sid b =
          inputFileAt vols sid b ∨
        (∃ s2, JVal.str s2 ∈ xs ∧ os_path_exists host s2 = true ∧ basename s2 = b ∧
          inputFileAt (stageFilesElems host vols sid xs).2.1 sid b =
            hostLookup host s2) := by
  induction xs with
  | nil => intro vols; left; rfl
  | cons v rest ih =>
    intro vols
    unfold stageFilesElems
    cases v with
    | str s =>
      cases hex : os_path_exists host s with
      | false =>
        rcases hr : stageFilesElems host vols sid rest with ⟨vs, v3, ok⟩
        have hih := ih vols
        rw [hr] at hih
        rcases hih with hih | ⟨s2, hmem, hex2, hb2, heq⟩
        · left; simpa [hex, hr] using hih
        · right
          exact ⟨s2, by simp [hmem], hex2, hb2, by simpa [hex, hr] using heq⟩
      | true =>
        rcases hcc : copy_to_input host vols s sid (some (basename s)) with ⟨v2, ok⟩
        have hok : ok = true := by
          have := copy_to_input_snd host vols s sid (some (basename s))
          rw [hcc, hex] at this
          exact this
        subst hok
        rcases hr : stageFilesElems host v2 sid rest with ⟨vs, v3, ok2⟩
        have hih := ih v2
        rw [hr] at hih
        rcases hih with hih | ⟨s2, hmem, hex2, hb2, heq⟩
        · by_cases hbs : b = basename s
          · right
            refine ⟨s, by simp, hex, hbs.symm, ?_⟩
            have hself := copy_to_input_inputFileAt_self host vols s sid hex
            rw [hcc] at hself
            subst hbs
            simpa [hex, hcc, hr] using hih.trans hself
          · left
            have hother := copy_to_input_inputFileAt_other host vols s sid b
              (basename s) hbs
            rw [hcc] at hother
            simpa [hex, hcc, hr] using hih.trans hother
        · right
          exact ⟨s2, by simp [hmem], hex2, hb2, by simpa [hex, hcc, hr] using heq⟩
    | num n =>
      rcases hr : stageFilesElems host vols sid rest with ⟨vs, v3, ok⟩
      have hih := ih vols
      rw [hr] at hih
      rcases hih with hih | ⟨s2, hmem, hex2, hb2, heq⟩
      · left; simpa [hr] using hih
      · right; exact ⟨s2, by simp [hmem], hex2, hb2, by simpa [hr] using heq⟩
    | bool bb =>
      rcases hr : stageFilesElems host vols sid rest with ⟨vs, v3, ok⟩
      have hih := ih vols
      rw [hr] at hih
      rcases hih with hih | ⟨s2, hmem, hex2, hb2, heq⟩
      · left; simpa [hr] using hih
      · right; exact ⟨s2, by simp [hmem], hex2, hb2, by simpa [hr] using heq⟩
    | null =>
      rcases hr : stageFilesElems host vols sid rest with ⟨vs, v3, ok⟩
      have hih := ih vols
      rw [hr] at hih
      rcases hih with hih | ⟨s2, hmem, hex2, hb2, heq⟩
      · left; simpa [hr] using hih
      · right; exact ⟨s2, by simp [hmem], hex2, hb2, by simpa [hr] using heq⟩
    | list ys =>
      rcases hr : stageFilesElems host vols sid rest with ⟨vs, v3, ok⟩
      have hih := ih vols
      rw [hr] at hih
      rcases hih with hih | ⟨s2, hmem, hex2, hb2, heq⟩
      · left; simpa [hr] using hih
      · right; exact ⟨s2, by simp [hmem], hex2, hb2, by simpa [hr] using heq⟩
    | obj fs =>
      rcases hr : stageFilesElems host vols sid rest with ⟨vs, v3, ok⟩
      have hih := ih vols
      rw [hr] at hih
      rcases hih with hih | ⟨s2, hmem, hex2, hb2, heq⟩
      · left; simpa [hr] using hih
      · right; exact ⟨s2, by simp [hmem], hex2, hb2, by simpa [hr] using heq⟩

/-- When `input_data['file']` is a string that resolves on the host, the
`'file'` key is rewritten to `/io/input/<basename>` and the file's
content is copied to `input/<basename>` of the session tree. -/
theorem stageFileKey_resolving (host : Host) (vols : Volumes) (sid : String)
    (d : List (String × JVal)) (s : String)
    (hform : alookup d "file" = some (.str s))
    (hex : os_path_exists host s = true) :
    alookup (stageFileKey host vols sid d).1 "file" =
        some (.str ("/io/input/" ++ basename s)) ∧
      inputFileAt (stageFileKey host vols sid d).2.1 sid (basename s) =
        hostLookup host s := by
  have htr : (JVal.str s).truthy = true := by
    simp [JVal.truthy, os_path_exists_ne_empty host s hex]
  unfold stageFileKey
  rw [hform]
  simp only [htr, if_true]
  rcases hcc : copy_to_input host vols s sid (some (basename s)) with ⟨v2, ok⟩
  have hok : ok = true := by
    have := copy_to_input_snd host vols s sid (some (basename s))
    rw [hcc, hex] at this
    exact this
  subst hok
  have hself := copy_to_input_inputFileAt_self host vols s sid hex
  rw [hcc] at hself
  simp [hex, hcc, alookup_aset_self, hself]

/-- When `input_data['file']` is a string that does not resolve on the
host, the payload and the volumes pass through unchanged. -/
theorem stageFileKey_passthrough (host : Host) (vols : Volumes) (sid : String)
    (d : List (String × JVal)) (s : String)
    (hform : alookup d "file" = some (.str s))
    (hex : os_path_exists host s = false) :
    stageFileKey host vols sid d = (d, vols, true) := by
  unfold stageFileKey
  rw [hform]
  cases htr : (JVal.str s).truthy
  · simp [htr]
  · simp [htr, hex]

/-- The `'file'` staging touches no key other than `'file'`. -/
theorem stageFileKey_lookup_ne (host : Host) (vols : Volumes) (sid : String)
    (d : List (String × JVal)) (k : String) (hk : k ≠ "file") :
    alookup (stageFileKey host vols sid d).1 k = alookup d k := by
  unfold stageFileKey
  cases hf : alookup d "file" with
  | none => rfl
  | some v =>
    cases htr : v.truthy
    · simp [htr]
    · cases v with
      | str s =>
        cases hex : os_path_exists host s with
        | false => simp [htr, hex]
        | true =>
          rcases hcc : copy_to_input host vols s sid (some (basename s)) with ⟨v2, ok⟩
          cases ok
          · simp [htr, hex, hcc]
          · simp [htr, hex, hcc,
              alookup_aset_ne d "file" k (.str ("/io/input/" ++ basename s))
                (fun h => hk h.symm)]
      | num n => simp [htr]
      | bool b => simp [htr]
      | null => simp [htr]
      | list xs => simp [htr]
      | obj fs => simp [htr]

/-- The `'files'` staging touches no key other than `'files'`. -/
theorem stageFilesKey_lookup_ne (host : Host) (vols : Volumes) (sid : String)
    (d : List (String × JVal)) (k : String) (hk : k ≠ "files") :
    alookup (stageFilesKey host vols sid d).1 k = alookup d k := by
  unfold stageFilesKey
  cases hf : alookup d "files" with
  | none => rfl
  | some v =>
    cases htr : v.truthy
    · simp [htr]
    · cases v with
      | list xs =>
        rcases hr : stageFilesElems host vols sid xs with ⟨xs2, v2, ok⟩
        cases ok
        · simp [htr, hr]
        · simp [htr, hr,
            alookup_aset_ne d "files" k (.list xs2) (fun h => hk h.symm)]
      | str s => simp [htr]
      | num n => simp [htr]
      | bool b => simp [htr]
      | null => simp [htr]
      | obj fs => simp [htr]

/-- When `input_data['files']` is a list, every string element that
resolves on the host is rewritten to `/io/input/<basename>` and every
other element is kept unchanged. -/
theorem stageFilesKey_listRewrite (host : Host) (vols : Volumes) (sid : String)
    (d : List (String × JVal)) (xs : List JVal)
    (hf : alookup d "files" = some (.list xs)) :
    alookup (stageFilesKey host vols sid d).1 "files" =
      some (.list (xs.map (stageElemVal host))) := by
  unfold stageFilesKey
  rw [hf]
  cases htr : (JVal.list xs).truthy
  · have hnil : xs = [] := by
      cases xs
      · rfl
      · simp [JVal.truthy] at htr
    subst hnil
    simp [htr, hf]
  · rcases hr : stageFilesElems host vols sid xs with ⟨xs2, v2, ok⟩
    have hfst := stageFilesElems_fst host sid xs vols
    rw [hr] at hfst
    simp only at hfst
    subst hfst
    have hok : ok = true := by
      have := stageFilesElems_ok host sid xs vols
      rw [hr] at this
      exact this
    subst hok
    simp [htr, hr, alookup_aset_self]

/-- Every resolving string element of the `'files'` list ends up in the
session's `input/` under its basename, holding the content of a resolving
host file with that basename (the last one staged with it). -/
theorem stageFilesElems_inputFileAt_mem (host : Host) (sid s : String)
    (xs : List JVal) :
    ∀ vols, JVal.str s ∈ xs → os_path_exists host s = true →
      ∃ s2, os_path_exists host s2 = true ∧ basename s2 = basename s ∧
        inputFileAt (stageFilesElems host vols sid xs).2.1 sid (basename s) =
          hostLookup host s2 := by
  induction xs with
  | nil => intro vols hmem hex; simp at hmem
  | cons v rest ih =>
    intro vols hmem hex
    unfold stageFilesElems
    rcases List.mem_cons.mp hmem with hv | hv
    · subst hv
      simp only [hex, if_true]
      rcases hcc : copy_to_input host vols s sid (some (basename s)) with ⟨v2, ok⟩
      have hok : ok = true := by
        have := copy_to_input_snd host vols s sid (some (basename s))
        rw [hcc, hex] at this
        exact this
      subst hok
      rcases hr : stageFilesElems host v2 sid rest with ⟨vs, v3, ok2⟩
      have hdisj := stageFilesElems_inputFileAt host sid (basename s) rest v2
      rw [hr] at hdisj
      have hself := copy_to_input_inputFileAt_self host vols s sid hex
      rw [hcc] at hself
      rcases hdisj with hdisj | ⟨s2, _, hex2, hb2, heq⟩
      · exact ⟨s, hex, rfl, by simpa [hr] using hdisj.trans hself⟩
      · exact ⟨s2, hex2, hb2, by simpa [hr] using heq⟩
    · cases v with
      | str s0 =>
        cases hex0 : os_path_exists host s0 with
        | false =>
          rcases hr : stageFilesElems host vols sid rest with ⟨vs, v3, ok⟩
          obtain ⟨s2, hex2, hb2, heq⟩ := ih vols hv hex
          rw [hr] at heq
          exact ⟨s2, hex2, hb2, by simpa [hex0, hr] using heq⟩
        | true =>
          rcases hcc : copy_to_input host vols s0 sid (some (basename s0)) with ⟨v2, ok⟩
          have hok : ok = true := by
            have := copy_to_input_snd host vols s0 sid (some (basename s0))
            rw [hcc, hex0] at this
            exact this
          subst hok
          rcases hr : stageFilesElems host v2 sid rest with ⟨vs, v3, ok2⟩
          obtain ⟨s2, hex2, hb2, heq⟩ := ih v2 hv hex
          rw [hr] at heq
          exact ⟨s2, hex2, hb2, by simpa [hex0, hcc, hr] using heq⟩
      | num n =>
        rcases hr : stageFilesElems host vols sid rest with ⟨vs, v3, ok⟩
        obtain ⟨s2, hex2, hb2, heq⟩ := ih vols hv hex
        rw [hr] at heq
        exact ⟨s2, hex2, hb2, by simpa [hr] using heq⟩
      | bool b =>
        rcases hr : stageFilesElems host vols sid rest with ⟨vs, v3, ok⟩
        obtain ⟨s2, hex2, hb2, heq⟩ := ih vols hv hex
        rw [hr] at heq
        exact ⟨s2, hex2, hb2, by simpa [hr] using heq⟩
      | null =>
        rcases hr : stageFilesElems host vols sid rest with ⟨vs, v3, ok⟩
        obtain ⟨s2, hex2, hb2, heq⟩ := ih vols hv hex
        rw [hr] at heq
        exact ⟨s2, hex2, hb2, by simpa [hr] using heq⟩
      | list ys =>
        rcases hr : stageFilesElems host vols sid rest with ⟨vs, v3, ok⟩
        obtain ⟨s2, hex2, hb2, heq⟩ := ih vols hv hex
        rw [hr] at heq
        exact ⟨s2, hex2, hb2, by simpa [hr] using heq⟩
      | obj fs =>
        rcases hr : stageFilesElems host vols sid rest with ⟨vs, v3, ok⟩
        obtain ⟨s2, hex2, hb2, heq⟩ := ih vols hv hex
        rw [hr] at heq
        exact ⟨s2, hex2, hb2, by simpa [hr] using heq⟩

/-- Staging the `'files'` key at the payload level: every resolving string
element is copied into the session's `input/` under its basename. -/
theorem stageFilesKey_copies (host : Host) (vols : Volumes) (sid : String)
    (d : List (String × JVal)) (xs : List JVal) (s : String)
    (hf : alookup d "files" = some (.list xs))
    (hmem : JVal.str s ∈ xs)
    (hex : os_path_exists host s = true) :
    ∃ s2, os_path_exists host s2 = true ∧ basename s2 = basename s ∧
      inputFileAt (stageFilesKey host vols sid d).2.1 sid (basename s) =
        hostLookup host s2 := by
  unfold stageFilesKey
  rw [hf]
  have htr : (JVal.list xs).truthy = true := by
    cases xs
    · simp at hmem
    · simp [JVal.truthy]
  simp only [htr, if_true]
  rcases hr : stageFilesElems host vols sid xs with ⟨xs2, v2, ok⟩
  have hok : ok = true := by
    have := stageFilesElems_ok host sid xs vols
    rw [hr] at this
    exact this
  subst hok
  obtain ⟨s2, hex2, hb2, heq⟩ := stageFilesElems_inputFileAt_mem host sid s xs vols hmem hex
  rw [hr] at heq
  exact ⟨s2, hex2, hb2, by simpa [hr] using heq⟩

/-! ## Lemmas about the `get_state` snapshot (claim C5) -/

theorem alookup_unique {α : Type} {l : List (String × α)} {k : String} {v : α}
    (hnd : (l.map (fun p => p.1)).Nodup) (h : alookup l k = some v) :
    ∀ p ∈ l, p.1 = k → p.2 = v := by
  induction l with
  | nil => simp
  | cons q t ih =>
    intro p hp hpk
    rcases List.mem_cons.mp hp with hp | hp
    · subst hp
      rw [alookup, if_pos hpk] at h
      injection h with h
    · by_cases hq : q.1 = k
      · exfalso
        have : q.1 ∈ t.map (fun p => p.1) :=
          List.mem_map.mpr ⟨p, hp, by rw [hpk, hq]⟩
        exact (List.nodup_cons.mp hnd).1 this
      · rw [alookup, if_neg hq] at h
        exact ih (List.nodup_cons.mp hnd).2 h p hp hpk

/-- The snapshot's node list, spelled out. -/
theorem get_state_nodes_eq (tr : StateTracker) (now : Int) :
    (get_state tr now).nodes =
      ((tr.executions.map (fun p => p.2)).filter (execIncluded now)).map mkStateNode := rfl

/-- The snapshot's edge list, spelled out. -/
theorem get_state_edges_eq (tr : StateTracker) (now : Int) :
    (get_state tr now).edges =
      (tr.handoffs.filter (fun h =>
        ((((tr.executions.map (fun p => p.2)).filter (execIncluded now)).map
            (fun e => e.session_id)).contains h.caller_session_id ||
          (((tr.executions.map (fun p => p.2)).filter (execIncluded now)).map
            (fun e => e.session_id)).contains h.target_session_id ||
          decide (now - h.timestamp < 60)))).map mkStateEdge := rfl

/-- A session appears among the snapshot's nodes iff its record passes the
code's retention test: running, or terminal with `now - start_time < 30`. -/
theorem get_state_node_mem (tr : StateTracker) (now : Int) (sid : String)
    (rec : ExecRecord) (hwf : TrackerWF tr)
    (hl : alookup tr.executions sid = some rec) :
    (∃ n ∈ (get_state tr now).nodes, n.session_id = sid) ↔
      execIncluded now rec = true := by
  rw [get_state_nodes_eq]
  constructor
  · rintro ⟨n, hn, hnid⟩
    obtain ⟨e, hef, hmk⟩ := List.mem_map.mp hn
    obtain ⟨hemem, hpred⟩ := List.mem_filter.mp hef
    obtain ⟨p, hp, hpe⟩ := List.mem_map.mp hemem
    have hesid : n.session_id = e.session_id := by rw [← hmk]; rfl
    have hpk : p.1 = sid := by
      have h1 := hwf.1 p hp
      rw [← h1, hpe, ← hesid, hnid]
    have hrec : p.2 = rec := alookup_unique hwf.2 hl p hp hpk
    rw [← hpe, hrec] at hpred
    exact hpred
  · intro hpred
    have hmemrec : rec ∈ tr.executions.map (fun p => p.2) :=
      List.mem_map.mpr ⟨(sid, rec), alookup_mem hl, rfl⟩
    refine ⟨mkStateNode rec,
      List.mem_map.mpr ⟨rec, List.mem_filter.mpr ⟨hmemrec, hpred⟩, rfl⟩, ?_⟩
    have := hwf.1 (sid, rec) (alookup_mem hl)
    simpa [mkStateNode] using this

theorem mkStateEdge_inj {a b : HandoffEdge} (h : mkStateEdge a = mkStateEdge b) :
    a = b := by
  cases a
  cases b
  simp only [mkStateEdge, StateEdge.mk.injEq] at h
  simp only [HandoffEdge.mk.injEq]
  exact ⟨h.1, h.2.2.1, h.2.2.2.1, h.2.1, h.2.2.2.2⟩

/-- A recorded handoff appears among the snapshot's edges iff its caller
or target session is among the retained executions, or its age satisfies
`now - timestamp < 60`. -/
theorem get_state_edge_mem (tr : StateTracker) (now : Int) (h : HandoffEdge)
    (hmem : h ∈ tr.handoffs) :
    mkStateEdge h ∈ (get_state tr now).edges ↔
      ((∃ e ∈ tr.executions.map (fun p => p.2), execIncluded now e = true ∧
          (e.session_id = h.caller_session_id ∨ e.session_id = h.target_session_id)) ∨
        now - h.timestamp < 60) := by
  rw [get_state_edges_eq]
  have hconv : ∀ x : String,
      ((((tr.executions.map (fun p => p.2)).filter (execIncluded now)).map
        (fun e => e.session_id)).contains x = true) ↔
      (∃ e ∈ tr.executions.map (fun p => p.2), execIncluded now e = true ∧
        e.session_id = x) := by
    intro x
    constructor
    · intro hx
      obtain ⟨e, hef, hx2⟩ := List.mem_map.mp (List.elem_iff.mp hx)
      obtain ⟨he, hpred⟩ := List.mem_filter.mp hef
      exact ⟨e, he, hpred, hx2⟩
    · rintro ⟨e, he, hpred, hx2⟩
      exact List.elem_iff.mpr
        (List.mem_map.mpr ⟨e, List.mem_filter.mpr ⟨he, hpred⟩, hx2⟩)
  constructor
  · intro hin
    obtain ⟨h2, hf2, hmk⟩ := List.mem_map.mp hin
    have hh : h2 = h := mkStateEdge_inj hmk
    subst hh
    obtain ⟨_, hcrit⟩ := List.mem_filter.mp hf2
    simp only [Bool.or_eq_true, decide_eq_true_eq] at hcrit
    rcases hcrit with (hc | hc) | hc
    · left
      obtain ⟨e, he, hp, hx⟩ := (hconv _).mp hc
      exact ⟨e, he, hp, Or.inl hx⟩
    · left
      obtain ⟨e, he, hp, hx⟩ := (hconv _).mp hc
      exact ⟨e, he, hp, Or.inr hx⟩
    · right
      exact hc
  · intro hcrit
    refine List.mem_map.mpr ⟨h, List.mem_filter.mpr ⟨hmem, ?_⟩, rfl⟩
    simp only [Bool.or_eq_true, decide_eq_true_eq]
    rcases hcrit with ⟨e, he, hp, hend | hend⟩ | hage
    · exact Or.inl (Or.inl ((hconv _).mpr ⟨e, he, hp, hend⟩))
    · exact Or.inl (Or.inr ((hconv _).mpr ⟨e, he, hp, hend⟩))
    · exact Or.inr hage

/-! ## Lemmas about the handoff path (claims C1 and C6) -/

theorem update_execution_status_aux (tr : StateTracker) (sid : String) (s : Status)
    (c : Option Nat) :
    (update_execution_status tr sid s c).handoffs = tr.handoffs ∧
      (update_execution_status tr sid s c).max_handoff_history =
        tr.max_handoff_history := by
  unfold update_execution_status
  split
  · exact ⟨rfl, rfl⟩
  · cases c <;> exact ⟨rfl, rfl⟩

theorem executeCapsuleBody_tracker_aux (env : ExecEnv) (sid : String)
    (d : List (String × JVal)) (fs : Option (List (String × String))) (st : OrchState) :
    ((executeCapsuleBody env sid d fs st).2).tracker.handoffs =
        st.tracker.handoffs ∧
      ((executeCapsuleBody env sid d fs st).2).tracker.max_handoff_history =
        st.tracker.max_handoff_history := by
  unfold executeCapsuleBody
  cases hcv : env.createVolumeRaises
  case true =>
    simp only [hcv, if_true]
    exact update_execution_status_aux st.tracker sid .failed none
  case false =>
  simp only [hcv, Bool.false_eq_true, if_false]
  rcases h1 : stageInputFiles env.host (create_session_volume st.vols sid) sid
    (fs.getD []) with ⟨v1, ok1⟩
  cases ok1
  case false => exact ⟨rfl, rfl⟩
  case true =>
  dsimp only
  rcases h2 : stageFileKey env.host v1 sid d with ⟨d1, v2, ok2⟩
  cases ok2
  case false => exact ⟨rfl, rfl⟩
  case true =>
  dsimp only
  rcases h3 : stageFilesKey env.host v2 sid d1 with ⟨d2, v3, ok3⟩
  cases ok3
  case false => exact ⟨rfl, rfl⟩
  case true =>
  dsimp only
  rcases h4 : write_input_json v3 sid d2 with ⟨v4, ok4⟩
  cases ok4
  case false => exact ⟨rfl, rfl⟩
  case true =>
  dsimp only
  repeat' split
  all_goals
    simp [(update_execution_status_aux _ _ _ _).1,
      (update_execution_status_aux _ _ _ _).2]

theorem executeCapsule_tracker_aux (env : ExecEnv) (now : Int) (n : String)
    (d : List (String × JVal)) (fs : Option (List (String × String)))
    (sid : String) (par : Option String) (st : OrchState) :
    ((executeCapsule env now n d fs sid par st).2).tracker.handoffs =
        st.tracker.handoffs ∧
      ((executeCapsule env now n d fs sid par st).2).tracker.max_handoff_history =
        st.tracker.max_handoff_history := by
  unfold executeCapsule
  repeat' split
  all_goals
    try exact ⟨rfl, rfl⟩
  all_goals
    simpa [register_execution] using
      executeCapsuleBody_tracker_aux env sid d fs
        { st with tracker := register_execution st.tracker now sid n none par }

theorem copy_handoff_outgoing_outgoing (vols : Volumes) (a b f sid2 g : String) :
    file_exists_in_handoff_outgoing (copy_handoff_outgoing vols a b f).1 sid2 g =
      file_exists_in_handoff_outgoing vols sid2 g := by
  unfold copy_handoff_outgoing file_exists_in_handoff_outgoing
  cases hsa : alookup vols a
  · rfl
  case some srcTree =>
  dsimp only
  cases hsf : alookup srcTree.outgoing f
  · rfl
  case some content =>
  dsimp only
  by_cases hb : b = sid2
  · subst hb
    simp only [alookup_aset_self]
    cases hvb : alookup vols b
    · simp [alookup]
    · simp [hvb]
  · simp [alookup_aset_ne vols b sid2 _ hb]

theorem copy_handoff_outgoing_snd (vols : Volumes) (a b f : String)
    (h : file_exists_in_handoff_outgoing vols a f = true) :
    (copy_handoff_outgoing vols a b f).2 = true := by
  unfold file_exists_in_handoff_outgoing at h
  unfold copy_handoff_outgoing
  cases hsa : alookup vols a
  · rw [hsa] at h; simp at h
  case some srcTree =>
  rw [hsa] at h
  dsimp only at h ⊢
  cases hsf : alookup srcTree.outgoing f
  · rw [hsf] at h; simp at h
  · simp [hsf]

theorem copyRefsToTarget_snd (a b : String) (refs : List String) :
    ∀ vols, (∀ f ∈ refs, file_exists_in_handoff_outgoing vols a f = true) →
      (copyRefsToTarget vols a b refs).2 = true := by
  induction refs with
  | nil => intro vols _; rfl
  | cons f rest ih =>
    intro vols hall
    unfold copyRefsToTarget
    rcases hc : copy_handoff_outgoing vols a b f with ⟨v2, ok⟩
    have hok : ok = true := by
      have := copy_handoff_outgoing_snd vols a b f (hall f (by simp))
      rw [hc] at this
      exact this
    subst hok
    dsimp only
    apply ih
    intro g hg
    have hpres := copy_handoff_outgoing_outgoing vols a b f a g
    rw [hc] at hpres
    rw [hpres]
    exact hall g (by simp [hg])

theorem dedupKeepFirst_mem {x : String} {l : List String}
    (h : x ∈ dedupKeepFirst l) : x ∈ l := by
  have haux : ∀ l2 seen, x ∈ dedupKeepFirst.go seen l2 → x ∈ l2 := by
    intro l2
    induction l2 with
    | nil => intro seen h2; simp [dedupKeepFirst.go] at h2
    | cons y t ih =>
      intro seen h2
      unfold dedupKeepFirst.go at h2
      by_cases hy : seen.contains y = true
      · rw [if_pos hy] at h2
        exact List.mem_cons_of_mem _ (ih seen h2)
      · rw [if_neg hy] at h2
        rcases List.mem_cons.mp h2 with h2 | h2
        · simp [h2]
        · exact List.mem_cons_of_mem _ (ih (seen ++ [y]) h2)
  exact haux l [] h

theorem handoffFileRefs_exists (vols : Volumes) (caller : String)
    (args : List (String × JVal)) :
    ∀ f ∈ handoffFileRefs vols caller args,
      file_exists_in_handoff_outgoing vols caller f = true := by
  intro f hf
  obtain ⟨kv, _, hfn⟩ := List.mem_filterMap.mp (dedupKeepFirst_mem hf)
  cases hv : kv.2 <;> rw [hv] at hfn <;> simp at hfn
  case str s =>
    rcases hfn with ⟨hfe, hsf⟩
    rw [← hsf]
    exact hfe

theorem register_handoff_getLast (tr : StateTracker) (now : Int)
    (cs cc tc ts : String) (success : Bool) (hmax : 0 < tr.max_handoff_history) :
    (register_handoff tr now cs cc tc ts success).handoffs.getLast? =
      some { caller_session_id := cs, caller_capsule := cc, target_capsule := tc,
             target_session_id := ts, timestamp := now, success := success } := by
  unfold register_handoff
  dsimp only
  by_cases hlen : (tr.handoffs ++
      [({ caller_session_id := cs, caller_capsule := cc, target_capsule := tc,
          target_session_id := ts, timestamp := now,
          success := success } : HandoffEdge)]).length > tr.max_handoff_history
  · rw [if_pos hlen]
    rw [List.drop_append_of_le_length (by simp at hlen ⊢; omega)]
    exact List.getLast?_concat _
  · rw [if_neg hlen]
    exact List.getLast?_concat _


/-- Edge registration in `process_handoff`: when the caller capsule
resolves, the last recorded handoff edge is the one for this handoff and
carries the success flag of the returned response; when it does not
resolve, the handoff log is untouched even though the target capsule was
executed (its session is registered with the tracker). -/
theorem processHandoff_edge (henv : HandoffEnv) (now : Int)
    (caller target : String) (args : List (String × JVal)) (tsid : String)
    (st : OrchState) (htf : henv.targetFound = true) :
    (∀ cc, get_capsule_name st.tracker caller = some cc →
        0 < st.tracker.max_handoff_history →
        ((processHandoff henv now caller target args tsid st).2).tracker.handoffs.getLast? =
          some { caller_session_id := caller, caller_capsule := cc,
                 target_capsule := target, target_session_id := tsid,
                 timestamp := now,
                 success := (processHandoff henv now caller target args tsid st).1.success }) ∧
      (get_capsule_name st.tracker caller = none →
        ((processHandoff henv now caller target args tsid st).2).tracker.handoffs =
            st.tracker.handoffs ∧
          (alookup ((processHandoff henv now caller target args tsid st).2).tracker.executions
            tsid).isSome = true) := by
  unfold processHandoff
  simp only [htf, Bool.not_true, Bool.false_eq_true, if_false]
  rcases hcr : copyRefsToTarget st.vols caller tsid (handoffFileRefs st.vols caller args)
    with ⟨vc, okc⟩
  have hokc : okc = true := by
    have := copyRefsToTarget_snd caller tsid (handoffFileRefs st.vols caller args) st.vols
      (handoffFileRefs_exists st.vols caller args)
    rw [hcr] at this
    exact this
  subst hokc
  dsimp only
  have htaux := executeCapsule_tracker_aux henv.exec now target args none tsid
    (some caller) { st with vols := vc }
  have hstatus := executeCapsule_status henv.exec now target args none tsid
    (some caller) { st with vols := vc }
  constructor
  · intro cc hcc hmax
    rw [hcc]
    dsimp only
    have hmax2 : 0 < ((executeCapsule henv.exec now target args none tsid
        (some caller) { st with vols := vc }).2).tracker.max_handoff_history := by
      rw [htaux.2]
      exact hmax
    cases hs : (executeCapsule henv.exec now target args none tsid (some caller)
        { st with vols := vc }).1.success
    · simpa [cleanupSession, hs] using
        register_handoff_getLast _ now caller cc target tsid false hmax2
    · simpa [cleanupSession, hs] using
        register_handoff_getLast _ now caller cc target tsid true hmax2
  · intro hcc
    rw [hcc]
    dsimp only
    have hpres : (alookup ((executeCapsule henv.exec now target args none tsid
        (some caller) { st with vols := vc }).2).tracker.executions tsid).isSome = true := by
      unfold sessionStatus at hstatus
      cases halu : alookup ((executeCapsule henv.exec now target args none tsid
          (some caller) { st with vols := vc }).2).tracker.executions tsid
      · rw [halu] at hstatus
        simp at hstatus
      · simp
    cases hs : (executeCapsule henv.exec now target args none tsid (some caller)
        { st with vols := vc }).1.success
    · exact ⟨by simpa [cleanupSession] using htaux.1, by simpa [cleanupSession] using hpres⟩
    · exact ⟨by simpa [cleanupSession] using htaux.1, by simpa [cleanupSession] using hpres⟩

/-! ## The claims -/

/-- C1: the claim says that when a handoff's target capsule completes
successfully and produces output files, each of those files is copied into
the caller's `handoff/incoming/` before the handoff response returns.  The
code cannot do this: `execute_capsule`'s `finally` removes the target
session tree before `process_handoff` performs the copies, so
`copy_handoff_incoming` finds no source and merely logs a warning.  This
theorem evaluates the model at the failing input: the target capsule (from
caller session `A`, target session `Tsess`) exits 0 and writes `out.bin`;
the handoff response claims success and lists `out.bin`, the caller's tree
still exists, yet its `handoff/incoming/` does not contain the file. -/
theorem C1_handoff_output_files_never_delivered :
    (processHandoff
        { exec := { runContainer := some 1,
                    writes := { outputFiles := [("out.bin", "DATA")],
                                outputJson := some (.valid (.obj [])) } } }
        0 "A" "T" [] "Tsess"
        { vols := [("A", { outgoing := [("blob.bin", "B")] })] }).1.success = true ∧
      (processHandoff
        { exec := { runContainer := some 1,
                    writes := { outputFiles := [("out.bin", "DATA")],
                                outputJson := some (.valid (.obj [])) } } }
        0 "A" "T" [] "Tsess"
        { vols := [("A", { outgoing := [("blob.bin", "B")] })] }).1.files = ["out.bin"] ∧
      volume_exists (processHandoff
        { exec := { runContainer := some 1,
                    writes := { outputFiles := [("out.bin", "DATA")],
                                outputJson := some (.valid (.obj [])) } } }
        0 "A" "T" [] "Tsess"
        { vols := [("A", { outgoing := [("blob.bin", "B")] })] }).2.vols "A" = true ∧
      incomingFileAt (processHandoff
        { exec := { runContainer := some 1,
                    writes := { outputFiles := [("out.bin", "DATA")],
                                outputJson := some (.valid (.obj [])) } } }
        0 "A" "T" [] "Tsess"
        { vols := [("A", { outgoing := [("blob.bin", "B")] })] }).2.vols "A" "out.bin"
        = none := by
  decide

/-- C2 (counterexample): the claim says every return path of
`execute_capsule` advances the registered session to a terminal status.
On the capsule-not-found path the session record registered as `running`
is left `running`: at this concrete input the final status is neither
`completed` nor `failed`. -/
theorem C2_counterexample_not_found_leaves_running :
    ¬ (sessionStatus ((executeCapsule { capsuleFound := false } 0 "caps" [] none
          "sess-1" none {}).2) "sess-1" = some Status.completed ∨
        sessionStatus ((executeCapsule { capsuleFound := false } 0 "caps" [] none
          "sess-1" none {}).2) "sess-1" = some Status.failed) := by
  decide

/-- C2 (amended): the StateTracker record is advanced to a terminal
status only on the in-`try` exception, container-start-failure, timeout,
non-zero-exit and success paths of `execute_capsule`; on the early
rejections (capsule not found, validator exception, input-schema
violation), on file-staging and build failures, and on the path where the
container exits 0 but `output.json` cannot be read, the record remains
`running` when the call returns.  `expectedStatus` states exactly which
status each path leaves. -/
theorem C2_amended_tracker_status (env : ExecEnv) (now : Int) (capsule_name : String)
    (d : List (String × JVal)) (fs : Option (List (String × String)))
    (sid : String) (parent : Option String) (st : OrchState) :
    sessionStatus ((executeCapsule env now capsule_name d fs sid parent st).2) sid =
      some (expectedStatus env fs) :=
  executeCapsule_status env now capsule_name d fs sid parent st

/-- C3 (counterexample): the claim says every exit path of
`execute_capsule` removes the container it started, including the path
where the container exits 0 but `output.json` cannot be read.  At this
concrete input (container 7 starts, exits 0, writes no `output.json`) the
call returns the structured failure but never stops or removes the
container. -/
theorem C3_counterexample_missing_output_leaks_container :
    startedInTrace ((executeCapsule { runContainer := some 7, waitResult := some 0 }
        0 "caps" [] none "S" none {}).2).trace 7 = true ∧
      removedInTrace ((executeCapsule { runContainer := some 7, waitResult := some 0 }
        0 "caps" [] none "S" none {}).2).trace 7 = false ∧
      stoppedInTrace ((executeCapsule { runContainer := some 7, waitResult := some 0 }
        0 "caps" [] none "S" none {}).2).trace 7 = false ∧
      ((executeCapsule { runContainer := some 7, waitResult := some 0 }
        0 "caps" [] none "S" none {}).1).error = some "Failed to read output JSON" := by
  decide

/-- C3 (amended): when `execute_capsule` starts a container, the
container is removed on the timeout, non-zero-exit and success paths
(`expectedContainerRemoved`), but not on the path where the container
exits 0 and `output.json` is missing or unparsable; the pre-remove stop
happens exactly on the timeout path. -/
theorem C3_amended_container_removal (env : ExecEnv) (now : Int)
    (capsule_name : String) (d : List (String × JVal))
    (fs : Option (List (String × String))) (sid : String) (parent : Option String)
    (st : OrchState) (cid : Nat)
    (hcf : env.capsuleFound = true)
    (hvr : env.validatorRaises = false)
    (hiv : env.inputValid = true)
    (hcv : env.createVolumeRaises = false)
    (hall : (fs.getD []).all (fun p => os_path_exists env.host p.2) = true)
    (hb : env.buildOk = true)
    (hrc : env.runContainer = some cid) :
    startedInTrace (executeCapsule env now capsule_name d fs sid parent st).2.trace cid
        = true ∧
      removedInTrace (executeCapsule env now capsule_name d fs sid parent st).2.trace cid
        = (removedInTrace st.trace cid || expectedContainerRemoved env) ∧
      stoppedInTrace (executeCapsule env now capsule_name d fs sid parent st).2.trace cid
        = (stoppedInTrace st.trace cid || decide (env.waitResult = none)) :=
  executeCapsule_container_events env now capsule_name d fs sid parent st cid
    hcf hvr hiv hcv hall hb hrc

/-- Witness for C3 (amended) at a concrete successful run: container 7
starts and is removed. -/
theorem C3_amended_container_removal_witness :
    startedInTrace ((executeCapsule
        { runContainer := some 7, waitResult := some 0,
          writes := { outputJson := some (.valid .null) } }
        0 "caps" [] none "S" none {}).2).trace 7 = true ∧
      removedInTrace ((executeCapsule
        { runContainer := some 7, waitResult := some 0,
          writes := { outputJson := some (.valid .null) } }
        0 "caps" [] none "S" none {}).2).trace 7 =
        (removedInTrace (({} : OrchState)).trace 7 ||
          expectedContainerRemoved
            { runContainer := some 7, waitResult := some 0,
              writes := { outputJson := some (.valid .null) } }) ∧
      stoppedInTrace ((executeCapsule
        { runContainer := some 7, waitResult := some 0,
          writes := { outputJson := some (.valid .null) } }
        0 "caps" [] none "S" none {}).2).trace 7 =
        (stoppedInTrace (({} : OrchState)).trace 7 ||
          decide ((({ runContainer := some 7,
                      waitResult := some 0,
                      writes := { outputJson := some (.valid .null) } } :
              ExecEnv)).waitResult = none)) :=
  C3_amended_container_removal
    { runContainer := some 7, waitResult := some 0,
      writes := { outputJson := some (.valid .null) } }
    0 "caps" [] none "S" none {} 7 rfl rfl rfl rfl rfl rfl rfl

/-- Host filesystem used by the C4 witness. -/
def c4Host : Host := [("/tmp/a.txt", "AAA"), ("/data/b.txt", "BBB")]

/-- Payload used by the C4 witness. -/
def c4Payload : List (String × JVal) :=
  [("file", .str "/tmp/a.txt"),
   ("files", .list [.str "/data/b.txt", .str "/nope", .num 3]),
   ("q", .str "hello")]

/-- C4: implicit file staging in `execute_capsule`.  (1) When the call
reaches the container, the `input.json` written (and recorded in the
trace before the container starts) is exactly the staged payload;
(2) a `'file'` value that is a string resolving on the host is rewritten
to `/io/input/<basename>` and its content is copied to `input/<basename>`;
(3) a non-resolving string `'file'` value passes through with payload and
volumes unchanged; (4) a `'files'` list is rewritten elementwise
(`stageElemVal`: resolving strings rewritten, everything else kept);
(5) each resolving string element is copied into `input/` under its
basename (holding the content of the last staged source with that
basename); (6) no key other than `'file'` and `'files'` is mutated. -/
theorem C4_implicit_file_staging :
    (∀ (env : ExecEnv) (now : Int) (capsule_name : String) (d : List (String × JVal))
        (sid : String) (parent : Option String) (st : OrchState) (cid : Nat),
        env.capsuleFound = true → env.validatorRaises = false → env.inputValid = true →
        env.createVolumeRaises = false → env.buildOk = true →
        env.runContainer = some cid →
        (executeCapsule env now capsule_name d none sid parent st).2.trace =
          st.trace ++
            [Event.inputJsonWritten sid
              (stagedPayload env.host (create_session_volume st.vols sid) sid d),
             Event.containerStarted cid] ++ traceTail env sid cid) ∧
      (∀ (host : Host) (vols : Volumes) (sid : String) (d : List (String × JVal))
          (s : String),
        alookup d "file" = some (.str s) → os_path_exists host s = true →
        alookup (stageFileKey host vols sid d).1 "file" =
            some (.str ("/io/input/" ++ basename s)) ∧
          inputFileAt (stageFileKey host vols sid d).2.1 sid (basename s) =
            hostLookup host s) ∧
      (∀ (host : Host) (vols : Volumes) (sid : String) (d : List (String × JVal))
          (s : String),
        alookup d "file" = some (.str s) → os_path_exists host s = false →
        stageFileKey host vols sid d = (d, vols, true)) ∧
      (∀ (host : Host) (vols : Volumes) (sid : String) (d : List (String × JVal))
          (xs : List JVal),
        alookup d "files" = some (.list xs) →
        alookup (stageFilesKey host vols sid d).1 "files" =
          some (.list (xs.map (stageElemVal host)))) ∧
      (∀ (host : Host) (vols : Volumes) (sid : String) (d : List (String × JVal))
          (xs : List JVal) (s : String),
        alookup d "files" = some (.list xs) → JVal.str s ∈ xs →
        os_path_exists host s = true →
        ∃ s2, os_path_exists host s2 = true ∧ basename s2 = basename s ∧
          inputFileAt (stageFilesKey host vols sid d).2.1 sid (basename s) =
            hostLookup host s2) ∧
      (∀ (host : Host) (vols : Volumes) (sid : String) (d : List (String × JVal))
          (k : String),
        k ≠ "file" → k ≠ "files" →
        alookup (stagedPayload host vols sid d) k = alookup d k) := by
  refine ⟨?_, ?_, ?_, ?_, ?_, ?_⟩
  · intro env now capsule_name d sid parent st cid hcf hvr hiv hcv hb hrc
    exact executeCapsule_trace env now capsule_name d none sid parent st cid
      hcf hvr hiv hcv rfl hb hrc
  · intro host vols sid d s hf hex
    exact stageFileKey_resolving host vols sid d s hf hex
  · intro host vols sid d s hf hex
    exact stageFileKey_passthrough host vols sid d s hf hex
  · intro host vols sid d xs hf
    exact stageFilesKey_listRewrite host vols sid d xs hf
  · intro host vols sid d xs s hf hmem hex
    exact stageFilesKey_copies host vols sid d xs s hf hmem hex
  · intro host vols sid d k hk1 hk2
    unfold stagedPayload
    rw [stageFilesKey_lookup_ne _ _ _ _ _ hk2, stageFileKey_lookup_ne _ _ _ _ _ hk1]

/-- Witness for C4 at a concrete host and payload: the `'file'` key is
rewritten and copied, the `'files'` list is rewritten elementwise with the
non-resolving element kept, the resolving element is copied, and the
unrelated key `'q'` is untouched. -/
theorem C4_implicit_file_staging_witness :
    (alookup (stageFileKey c4Host [("S", {})] "S" c4Payload).1 "file" =
        some (.str "/io/input/a.txt") ∧
      inputFileAt (stageFileKey c4Host [("S", {})] "S" c4Payload).2.1 "S" "a.txt" =
        hostLookup c4Host "/tmp/a.txt") ∧
      alookup (stageFilesKey c4Host [("S", {})] "S" c4Payload).1 "files" =
        some (.list ([JVal.str "/data/b.txt", .str "/nope", .num 3].map
          (stageElemVal c4Host))) ∧
      (∃ s2, os_path_exists c4Host s2 = true ∧ basename s2 = basename "/data/b.txt" ∧
        inputFileAt (stageFilesKey c4Host [("S", {})] "S" c4Payload).2.1 "S"
            (basename "/data/b.txt") = hostLookup c4Host s2) ∧
      alookup (stagedPayload c4Host [("S", {})] "S" c4Payload) "q" =
        alookup c4Payload "q" := by
  refine ⟨?_, ?_, ?_, ?_⟩
  · have h := C4_implicit_file_staging.2.1 c4Host [("S", {})] "S" c4Payload
      "/tmp/a.txt" rfl rfl
    simpa [basename, basenameChars] using h
  · exact C4_implicit_file_staging.2.2.2.1 c4Host [("S", {})] "S" c4Payload
      [JVal.str "/data/b.txt", .str "/nope", .num 3] rfl
  · exact C4_implicit_file_staging.2.2.2.2.1 c4Host [("S", {})] "S" c4Payload
      [JVal.str "/data/b.txt", .str "/nope", .num 3] "/data/b.txt" rfl
      (by simp) rfl
  · exact C4_implicit_file_staging.2.2.2.2.2 c4Host [("S", {})] "S" c4Payload
      "q" (by decide) (by decide)

/-- C5 (counterexample): the claim says the snapshot includes every
execution whose age since REACHING a terminal status is at most 30
seconds.  Here an execution registered at time 0 is marked `completed` at
time 35 and the snapshot is taken at time 40: its terminal age is 5
(`claimExecIncluded` — the claim's criterion — says include it), yet
`get_state` returns no node, because the code measures the age from
`start_time` (40 - 0 = 40 ≥ 30); the record does not even store when the
terminal status was reached. -/
theorem C5_counterexample_terminal_age :
    claimExecIncluded 40 .completed (some 35) = true ∧
      (get_state (update_execution_status
        (register_execution {} 0 "s1" "caps" none none) "s1" .completed none)
        40).nodes = [] := by
  decide

/-- C5 (amended): `get_state` includes exactly those executions that are
`running`, or terminal with `now - start_time < 30` (strictly, and
measured from the start of the execution, not from reaching the terminal
status); it includes exactly those handoffs whose caller or target
session is among the included executions, or whose age satisfies
`now - timestamp < 60` (strictly). -/
theorem C5_amended_snapshot_retention (tr : StateTracker) (now : Int)
    (hwf : TrackerWF tr) :
    (∀ sid rec, alookup tr.executions sid = some rec →
        ((∃ n ∈ (get_state tr now).nodes, n.session_id = sid) ↔
          (rec.status = .running ∨
            ((rec.status = .completed ∨ rec.status = .failed) ∧
              now - rec.start_time < 30)))) ∧
      (∀ h ∈ tr.handoffs,
        mkStateEdge h ∈ (get_state tr now).edges ↔
          ((∃ e ∈ tr.executions.map (fun p => p.2), execIncluded now e = true ∧
              (e.session_id = h.caller_session_id ∨
                e.session_id = h.target_session_id)) ∨
            now - h.timestamp < 60)) := by
  constructor
  · intro sid rec hl
    rw [get_state_node_mem tr now sid rec hwf hl]
    simp [execIncluded, Bool.or_eq_true, Bool.and_eq_true, decide_eq_true_eq]
  · intro h hmem
    exact get_state_edge_mem tr now h hmem

/-- Tracker used by the C5 witness: one running execution and one
recorded handoff. -/
def c5Tracker : StateTracker :=
  register_handoff (register_execution {} 0 "A" "caps" none none) 5 "A" "caps" "B" "T" true

/-- Record used by the C5 witness. -/
def c5Record : ExecRecord :=
  { session_id := "A", capsule_name := "caps", start_time := 0,
    status := .running, container_id := none, parent_session_id := none }

/-- Edge used by the C5 witness. -/
def c5Edge : HandoffEdge :=
  { caller_session_id := "A", caller_capsule := "caps", target_capsule := "B",
    target_session_id := "T", timestamp := 5, success := true }

/-- Witness for C5 (amended) on `c5Tracker` at time 100: the running
execution is included regardless of age, and the old handoff edge is
included because its caller session is live. -/
theorem C5_amended_snapshot_retention_witness :
    ((∃ n ∈ (get_state c5Tracker 100).nodes, n.session_id = "A") ↔
        (c5Record.status = .running ∨
          ((c5Record.status = .completed ∨ c5Record.status = .failed) ∧
            (100 : Int) - c5Record.start_time < 30))) ∧
      (mkStateEdge c5Edge ∈ (get_state c5Tracker 100).edges ↔
        ((∃ e ∈ c5Tracker.executions.map (fun p => p.2), execIncluded 100 e = true ∧
            (e.session_id = c5Edge.caller_session_id ∨
              e.session_id = c5Edge.target_session_id)) ∨
          (100 : Int) - c5Edge.timestamp < 60)) :=
  ⟨(C5_amended_snapshot_retention c5Tracker 100 ⟨by decide, by decide⟩).1 "A"
      c5Record rfl,
    (C5_amended_snapshot_retention c5Tracker 100 ⟨by decide, by decide⟩).2 c5Edge
      (by decide)⟩

/-- C6 (counterexample): the claim says that when the caller capsule name
cannot be resolved, the handoff edge is still recorded with only its
attribution degraded.  At this concrete input the caller session is
unknown to the tracker; the handoff proceeds (the response is successful
and the target execution was registered), but no edge at all is recorded:
the handoff log stays empty. -/
theorem C6_counterexample_unknown_caller_drops_edge :
    (processHandoff
        { exec := { runContainer := some 1,
                    writes := { outputJson := some (.valid (.obj [])) } } }
        0 "A" "T" [] "Tsess" { vols := [("A", {})] }).1.success = true ∧
      (processHandoff
        { exec := { runContainer := some 1,
                    writes := { outputJson := some (.valid (.obj [])) } } }
        0 "A" "T" [] "Tsess" { vols := [("A", {})] }).2.tracker.handoffs = [] ∧
      (alookup (processHandoff
        { exec := { runContainer := some 1,
                    writes := { outputJson := some (.valid (.obj [])) } } }
        0 "A" "T" [] "Tsess" { vols := [("A", {})] }).2.tracker.executions
        "Tsess").isSome = true := by
  decide

/-- C6 (amended): a handoff edge carrying the observed success flag is
registered iff the caller capsule name resolves from the caller session;
when it does not resolve, the handoff still proceeds — the target capsule
is executed and registered — but no edge is recorded. -/
theorem C6_amended_edge_registration (henv : HandoffEnv) (now : Int)
    (caller target : String) (args : List (String × JVal)) (tsid : String)
    (st : OrchState) (htf : henv.targetFound = true) :
    (∀ cc, get_capsule_name st.tracker caller = some cc →
        0 < st.tracker.max_handoff_history →
        ((processHandoff henv now caller target args tsid st).2).tracker.handoffs.getLast? =
          some { caller_session_id := caller, caller_capsule := cc,
                 target_capsule := target, target_session_id := tsid,
                 timestamp := now,
                 success := (processHandoff henv now caller target args tsid st).1.success }) ∧
      (get_capsule_name st.tracker caller = none →
        ((processHandoff henv now caller target args tsid st).2).tracker.handoffs =
            st.tracker.handoffs ∧
          (alookup ((processHandoff henv now caller target args tsid st).2).tracker.executions
            tsid).isSome = true) :=
  processHandoff_edge henv now caller target args tsid st htf

/-- Caller state used by the C6 witness: session `A` is registered, so the
caller capsule resolves. -/
def c6CallerState : OrchState :=
  { vols := [("A", {})],
    tracker := register_execution {} 0 "A" "caller-caps" none none }

/-- Witness for C6 (amended): with the caller registered, the last
recorded edge is the one for this handoff, carrying the response's
success flag. -/
theorem C6_amended_edge_registration_witness :
    ((processHandoff
        { exec := { runContainer := some 1,
                    writes := { outputJson := some (.valid (.obj [])) } } }
        5 "A" "T" [] "Tsess" c6CallerState).2).tracker.handoffs.getLast? =
      some { caller_session_id := "A", caller_capsule := "caller-caps",
             target_capsule := "T", target_session_id := "Tsess", timestamp := 5,
             success := (processHandoff
               { exec := { runContainer := some 1,
                           writes := { outputJson := some (.valid (.obj [])) } } }
               5 "A" "T" [] "Tsess" c6CallerState).1.success } :=
  (C6_amended_edge_registration
    { exec := { runContainer := some 1,
                writes := { outputJson := some (.valid (.obj [])) } } }
    5 "A" "T" [] "Tsess" c6CallerState rfl).1 "caller-caps" rfl (by decide)

/-- C7 (counterexample): the claim says the second removal of a session
volume succeeds just like the first.  At this concrete input the first
call returns `True` but the second returns `False` (the volume no longer
exists), so the two calls do not report alike. -/
theorem C7_counterexample_second_remove_reports_failure :
    (remove_session_volume [("s", ({} : SessionTree))] "s").2 = true ∧
      (remove_session_volume
        (remove_session_volume [("s", ({} : SessionTree))] "s").1 "s").2 = false := by
  decide

/-- C7 (amended): removing a session volume twice is idempotent on the
state and raises nothing (the model is total because the code catches all
exceptions): after the first call the volume is gone, the second call
changes nothing — but it returns `False`, reporting that the volume no
longer exists, rather than succeeding like the first. -/
theorem C7_amended_remove_idempotent (vols : Volumes) (sid : String) :
    (remove_session_volume (remove_session_volume vols sid).1 sid).1 =
        (remove_session_volume vols sid).1 ∧
      alookup (remove_session_volume vols sid).1 sid = none ∧
      (remove_session_volume (remove_session_volume vols sid).1 sid).2 = false := by
  cases h : alookup vols sid with
  | none =>
    have h1 : remove_session_volume vols sid = (vols, false) := by
      unfold remove_session_volume
      rw [h]
    rw [h1]
    exact ⟨by rw [h1], h, by rw [h1]⟩
  | some t =>
    have h1 : remove_session_volume vols sid = (aerase vols sid, true) := by
      unfold remove_session_volume
      rw [h]
    have h2 : remove_session_volume (aerase vols sid) sid = (aerase vols sid, false) := by
      unfold remove_session_volume
      rw [alookup_aerase_self]
    rw [h1]
    exact ⟨by rw [h2], alookup_aerase_self vols sid, by rw [h2]⟩

/-- C8: when the container exits 0 and `output.json` is read, an output-
schema violation is non-fatal: the response has `success = true` and
carries the original, unmodified output payload, and the whole response
is independent of the `validate_output` verdict; only input-schema
violations produce a `success = false` response. -/
theorem C8_output_validation_nonfatal (env : ExecEnv) (now : Int)
    (capsule_name : String) (d : List (String × JVal))
    (fs : Option (List (String × String))) (sid : String) (parent : Option String)
    (st : OrchState) (cid : Nat) (v : JVal)
    (hcf : env.capsuleFound = true)
    (hvr : env.validatorRaises = false)
    (hiv : env.inputValid = true)
    (hcv : env.createVolumeRaises = false)
    (hall : (fs.getD []).all (fun p => os_path_exists env.host p.2) = true)
    (hb : env.buildOk = true)
    (hrc : env.runContainer = some cid)
    (hw : env.waitResult = some 0)
    (hoj : env.writes.outputJson = some (.valid v)) :
    ((executeCapsule env now capsule_name d fs sid parent st).1.success = true ∧
        (executeCapsule env now capsule_name d fs sid parent st).1.output = some v) ∧
      (∀ b, (executeCapsule { env with outputValid := b } now capsule_name d fs sid
          parent st).1 =
        (executeCapsule env now capsule_name d fs sid parent st).1) ∧
      (∀ env2 : ExecEnv, env2.inputValid = false →
        (executeCapsule env2 now capsule_name d fs sid parent st).1.success = false) := by
  have hresp := executeCapsule_response env now capsule_name d fs sid parent st cid
    hcf hvr hiv hcv hall hb hrc
  refine ⟨?_, ?_, ?_⟩
  · rw [hresp]
    simp [hw, hoj]
  · intro b
    have hresp2 := executeCapsule_response { env with outputValid := b } now
      capsule_name d fs sid parent st cid hcf hvr hiv hcv hall hb hrc
    rw [hresp, hresp2]
    rfl
  · intro env2 h2
    exact (executeCapsule_early_reject env2 now capsule_name d fs sid parent st
      (Or.inr (Or.inr h2))).2

/-- Environment used by the C8 witness: the capsule succeeds with payload
`{"k": 1}` while `validate_output` reports a violation. -/
def c8Env : ExecEnv :=
  { runContainer := some 2,
    waitResult := some 0,
    writes := { outputJson := some (.valid (.obj [("k", .num 1)])) },
    outputValid := false }

/-- Witness for C8: the response still succeeds with the original
payload, is the same whatever `validate_output` said, and an input
violation still fails. -/
theorem C8_output_validation_nonfatal_witness :
    ((executeCapsule c8Env 0 "caps" [] none "S" none {}).1.success = true ∧
        (executeCapsule c8Env 0 "caps" [] none "S" none {}).1.output =
          some (.obj [("k", .num 1)])) ∧
      (∀ b, (executeCapsule { c8Env with outputValid := b } 0 "caps" [] none "S"
          none {}).1 =
        (executeCapsule c8Env 0 "caps" [] none "S" none {}).1) ∧
      (∀ env2 : ExecEnv, env2.inputValid = false →
        (executeCapsule env2 0 "caps" [] none "S" none {}).1.success = false) :=
  C8_output_validation_nonfatal c8Env 0 "caps" [] none "S" none {} 2
    (.obj [("k", .num 1)]) rfl rfl rfl rfl rfl rfl rfl rfl rfl

/-- C9: a call rejected before staging — unknown capsule, validator
exception, or input-schema violation — has no filesystem or container
effect: the volumes and the event trace are unchanged (no session
directory, no staged file, no build, no container start), and the only
tracker change is the registration of the session; the response reports
failure. -/
theorem C9_early_reject_no_side_effects (env : ExecEnv) (now : Int)
    (capsule_name : String) (d : List (String × JVal))
    (fs : Option (List (String × String))) (sid : String) (parent : Option String)
    (st : OrchState)
    (h : env.capsuleFound = false ∨ env.validatorRaises = true ∨
      env.inputValid = false) :
    (executeCapsule env now capsule_name d fs sid parent st).2.vols = st.vols ∧
      (executeCapsule env now capsule_name d fs sid parent st).2.trace = st.trace ∧
      (executeCapsule env now capsule_name d fs sid parent st).2.tracker =
        register_execution st.tracker now sid capsule_name none parent ∧
      (executeCapsule env now capsule_name d fs sid parent st).1.success = false := by
  have h1 := executeCapsule_early_reject env now capsule_name d fs sid parent st h
  refine ⟨?_, ?_, ?_, h1.2⟩ <;> rw [h1.1]

/-- Witness for C9: an unknown capsule is rejected with no effect on a
non-trivial starting state. -/
theorem C9_early_reject_no_side_effects_witness :
    (executeCapsule { capsuleFound := false } 0 "nope" [] none "S" none
        { vols := [("other", {})] }).2.vols =
        ({ vols := [("other", {})] } : OrchState).vols ∧
      (executeCapsule { capsuleFound := false } 0 "nope" [] none "S" none
        { vols := [("other", {})] }).2.trace =
        ({ vols := [("other", {})] } : OrchState).trace ∧
      (executeCapsule { capsuleFound := false } 0 "nope" [] none "S" none
        { vols := [("other", {})] }).2.tracker =
        register_execution ({ vols := [("other", {})] } : OrchState).tracker 0 "S"
          "nope" none none ∧
      (executeCapsule { capsuleFound := false } 0 "nope" [] none "S" none
        { vols := [("other", {})] }).1.success = false :=
  C9_early_reject_no_side_effects { capsuleFound := false } 0 "nope" [] none "S"
    none { vols := [("other", {})] } (Or.inl rfl)

/-- C10: when the container exits 0 but `output.json` holds syntactically
invalid JSON, `read_output_json` returns `None` (just as when the file is
absent), and `execute_capsule` returns the same structured failure as for
a missing `output.json`: `success = false`, error `Failed to read output
JSON`, and the captured container logs. -/
theorem C10_invalid_output_json_failure (env : ExecEnv) (now : Int)
    (capsule_name : String) (d : List (String × JVal))
    (fs : Option (List (String × String))) (sid : String) (parent : Option String)
    (st : OrchState) (cid : Nat)
    (hcf : env.capsuleFound = true)
    (hvr : env.validatorRaises = false)
    (hiv : env.inputValid = true)
    (hcv : env.createVolumeRaises = false)
    (hall : (fs.getD []).all (fun p => os_path_exists env.host p.2) = true)
    (hb : env.buildOk = true)
    (hrc : env.runContainer = some cid)
    (hw : env.waitResult = some 0)
    (hoj : env.writes.outputJson = some .invalid) :
    (∀ (vols : Volumes) (sid2 : String) (t : SessionTree),
        alookup vols sid2 = some t → t.outputJson = some .invalid →
        read_output_json vols sid2 = none) ∧
      (executeCapsule env now capsule_name d fs sid parent st).1 =
        { success := false, error := some "Failed to read output JSON",
          logs := some env.logs } ∧
      (executeCapsule { env with writes := { env.writes with outputJson := none } }
          now capsule_name d fs sid parent st).1 =
        (executeCapsule env now capsule_name d fs sid parent st).1 := by
  have hresp := executeCapsule_response env now capsule_name d fs sid parent st cid
    hcf hvr hiv hcv hall hb hrc
  have hresp2 := executeCapsule_response
    { env with writes := { env.writes with outputJson := none } } now capsule_name
    d fs sid parent st cid hcf hvr hiv hcv hall hb hrc
  refine ⟨?_, ?_, ?_⟩
  · intro vols sid2 t ht hoj2
    unfold read_output_json
    rw [ht]
    simp [hoj2]
  · rw [hresp]
    simp [hw, hoj]
  · rw [hresp, hresp2]
    simp [hw, hoj]

/-- Environment used by the C10 witness: exit 0 with unparsable
`output.json` and captured logs. -/
def c10Env : ExecEnv :=
  { runContainer := some 3,
    waitResult := some 0,
    writes := { outputJson := some .invalid },
    logs := "LOGS" }

/-- Witness for C10 at a concrete run. -/
theorem C10_invalid_output_json_failure_witness :
    (∀ (vols : Volumes) (sid2 : String) (t : SessionTree),
        alookup vols sid2 = some t → t.outputJson = some .invalid →
        read_output_json vols sid2 = none) ∧
      (executeCapsule c10Env 0 "caps" [] none "S" none {}).1 =
        { success := false, error := some "Failed to read output JSON",
          logs := some c10Env.logs } ∧
      (executeCapsule { c10Env with writes := { c10Env.writes with outputJson := none } }
          0 "caps" [] none "S" none {}).1 =
        (executeCapsule c10Env 0 "caps" [] none "S" none {}).1 :=
  C10_invalid_output_json_failure c10Env 0 "caps" [] none "S" none {} 3
    rfl rfl rfl rfl rfl rfl rfl rfl rfl

end AgentOnDemand
